import Mathlib

/-!
# Shallow embedding of the Eruditus session-lifecycle engine

This file embeds the orchestration logic of `eruditus.py` (the Discord CTF
bot client class `Eruditus`): session creation (`create_ctf`), the
scheduled-event handler (`on_scheduled_event_update`), and the three periodic
jobs `ctf_reminder`, `challenge_puller` and `scoreboard_updater`.

External collaborators that are explicitly out of scope of the repository's
core (the Discord workspace provider, the Mongo store's query engine, and the
HTTP clients `register_to_ctfd`, `pull_challenges`, `get_scoreboard` from
`lib/ctfd`, plus `sanitize_channel_name` from `lib/util`) are modelled as
explicit state (guild/store records) or as function parameters; the logic
under verification is the orchestration in `eruditus.py` itself.

Machine-level details that no claim depends on are modelled as follows:
Mongo ObjectIds and Discord snowflake ids are `Nat` counters; scoreboard
scores (floats in CTFd) are `Int` (no claim depends on score arithmetic);
timestamps are `Int` seconds, and the rendered timestamp text is a `String`
parameter.
-/

/-- Python `str.lower()` (kernel-reducible character-map form). -/
def strLower (s : String) : String := ⟨s.data.map Char.toLower⟩

/-- Python `str.strip()`: drop whitespace from both ends. -/
def strTrim (s : String) : String :=
  ⟨((s.data.dropWhile Char.isWhitespace).reverse.dropWhile
      Char.isWhitespace).reverse⟩

/-- Python `str.title()`: each alphabetic character that follows a
non-alphabetic character is uppercased, every other alphabetic character is
lowercased. -/
def pyTitleAux : List Char → Bool → List Char
  | [], _ => []
  | c :: cs, prevAlpha =>
    (if c.isAlpha then (if prevAlpha then c.toLower else c.toUpper) else c)
      :: pyTitleAux cs c.isAlpha

def pyTitle (s : String) : String := ⟨pyTitleAux s.data false⟩

/-- Python `str.strip('/')` used on the credentials URL. -/
def stripSlashes (s : String) : String :=
  ⟨((s.data.dropWhile (· = '/')).reverse.dropWhile (· = '/')).reverse⟩

/-- Python format spec `{x:<w}`: left-justify in a field of width `w`. -/
def padRight (s : String) (w : Nat) : String :=
  s ++ String.mk (List.replicate (w - s.length) ' ')

/-- `location.split(" — ")[1]`: the scoring-platform base URL encoded in a
scheduled event's location field (`ctf_reminder`, line 320). -/
def parseLocationUrl (loc : String) : String :=
  (loc.splitOn " — ").getD 1 ""

/-- Status of a Discord scheduled event. -/
inductive EventStatus where
  | scheduled
  | active
  | ended
  | canceled
deriving DecidableEq, Repr

/-- A Discord scheduled event, as consumed by the handlers
(`name`, `status`, `start_time`, `user_count`, `location`, `users()`). -/
structure ScheduledEvent where
  name : String
  status : EventStatus
  startTime : Int
  userCount : Nat
  location : String
  users : List Nat
deriving DecidableEq, Repr

/-- A message in a text channel (`id` is the Discord snowflake). -/
structure Message where
  id : Nat
  content : String
deriving DecidableEq, Repr

/-- A guild text channel; `messages` is newest-first (the order
`channel.history` yields). -/
structure TextChannel where
  id : Nat
  name : String
  categoryId : Option Nat
  messages : List Message
deriving DecidableEq, Repr

/-- The single guild the bot serves: roles, category channels, text and
voice channels. `nextId` is the source of fresh snowflake ids. -/
structure Guild where
  roles : List (Nat × String)
  categories : List (Nat × String)
  textChannels : List TextChannel
  voiceChannels : List (Nat × String × Option Nat)
  nextId : Nat
deriving DecidableEq, Repr

/-- The `credentials` sub-document of a CTF record. -/
structure Credentials where
  url : Option String
  username : Option String
  password : Option String
deriving DecidableEq, Repr

/-- A document of the CTF collection, as built by `create_ctf`
(lines 129-149). `oid` is the Mongo `_id`. -/
structure CTFRec where
  oid : Nat
  name : String
  archived : Bool
  ended : Bool
  credentials : Credentials
  challenges : List Nat
  guild_role : Nat
  guild_category : Nat
  chan_announcements : Nat
  chan_credentials : Nat
  chan_scoreboard : Nat
  chan_solves : Nat
  chan_notes : Nat
  chan_botcmds : Nat
deriving DecidableEq, Repr

/-- A document of the challenge collection, as inserted by
`challenge_puller` (lines 545-562). -/
structure ChallengeRec where
  oid : Nat
  id : String
  name : String
  category : String
  channel : Nat
  solved : Bool
  blooded : Bool
  players : List Nat
  announcement : Nat
  solve_time : Option Int
  solve_announcement : Option Nat
deriving DecidableEq, Repr

/-- A challenge descriptor as yielded by `pull_challenges`. -/
structure ChallDesc where
  id : String
  name : String
  category : String
  value : Nat
  description : String
  tags : List String
  files : List String
deriving DecidableEq, Repr

/-- A scoreboard row as returned by `get_scoreboard`. -/
structure Team where
  name : String
  score : Int
deriving DecidableEq, Repr

/-- Environment configuration (`config.py`): `MIN_PLAYERS`, `TEAM_NAME`. -/
structure Config where
  minPlayers : Nat
  teamName : String
deriving DecidableEq, Repr

/-- Whole-system state: the guild plus the two Mongo collections.
`nextOid` is the source of fresh Mongo ObjectIds. -/
structure Sys where
  guild : Guild
  ctfs : List CTFRec
  challs : List ChallengeRec
  nextOid : Nat
deriving DecidableEq, Repr

/-- Externally visible side effects, in the order the code performs them. -/
inductive Effect where
  | createRole (name : String)
  | createCategory (name : String)
  | createTextChannel (name : String) (categoryId : Option Nat)
  | createVoiceChannel (name : String) (categoryId : Option Nat)
  | insertCtf (name : String)
  | insertChallenge (extId chName category : String)
  | updateCtfCredentials (oid : Nat)
  | updateCtfChallenges (oid : Nat) (challenges : List Nat)
  | setEnded (oid : Nat)
  | sendMessage (channelId : Nat) (content : String)
  | editMessage (channelId : Nat) (content : String)
  | pinMessage (channelId : Nat)
  | purgeChannel (channelId : Nat)
  | editCategoryReplace (catId : Nat) (oldGlyph newGlyph : String)
  | addRole (userId roleId : Nat)
  | registerAttempt (url : String)
deriving DecidableEq, Repr

/-! ## Guild primitives (the Discord adapter surface) -/

/-- `discord.utils.get(guild.text_channels, id=...)`. -/
def lookupChannel (g : Guild) (chId : Nat) : Option TextChannel :=
  g.textChannels.find? (fun c => c.id == chId)

/-- Apply `f` to every text channel with the given id. -/
def modifyChannel (g : Guild) (chId : Nat) (f : TextChannel → TextChannel) :
    Guild :=
  { g with
    textChannels := g.textChannels.map fun c => if c.id == chId then f c else c }

/-- `channel.send(content)`: append a fresh message (newest-first list). -/
def sendG (g : Guild) (chId : Nat) (content : String) : Guild × Nat :=
  let mid := g.nextId
  ({ modifyChannel g chId
      (fun c => { c with messages := ⟨mid, content⟩ :: c.messages }) with
     nextId := g.nextId + 1 },
   mid)

/-- `last_message.edit(content=...)`: replace the content of the most
recent message, keeping its id. -/
def editLastG (g : Guild) (chId : Nat) (content : String) : Guild :=
  modifyChannel g chId fun c =>
    { c with
      messages :=
        match c.messages with
        | [] => []
        | m :: rest => { m with content := content } :: rest }

/-- `channel.purge()`: delete all messages of the channel. -/
def purgeG (g : Guild) (chId : Nat) : Guild :=
  modifyChannel g chId fun c => { c with messages := [] }

/-- `guild.create_text_channel(name, category=...)`. -/
def createTextChannelG (g : Guild) (name : String) (cat : Option Nat) :
    Guild × Nat :=
  ({ g with
     textChannels := g.textChannels ++ [⟨g.nextId, name, cat, []⟩],
     nextId := g.nextId + 1 },
   g.nextId)

/-- `guild.create_voice_channel(name, category=...)`. -/
def createVoiceChannelG (g : Guild) (name : String) (cat : Option Nat) :
    Guild × Nat :=
  ({ g with
     voiceChannels := g.voiceChannels ++ [(g.nextId, name, cat)],
     nextId := g.nextId + 1 },
   g.nextId)

/-- `category_channel.edit(name=category_channel.name.replace(old, new))`. -/
def editCategoryReplaceG (g : Guild) (catId : Nat) (old new : String) : Guild :=
  { g with
    categories := g.categories.map fun c =>
      if c.1 == catId then (c.1, c.2.replace old new) else c }

/-! ## Store primitives (the Mongo adapter surface) -/

/-- `find_one({"name": re.compile(f"^{re.escape(name.strip())}$",
re.IGNORECASE)})` on the CTF collection: full, literal, case-insensitive
match of the stored name against the stripped query name. -/
def findCTF (s : Sys) (name : String) : Option CTFRec :=
  s.ctfs.find? (fun c => strLower c.name == strLower (strTrim name))

/-- `update_one({"_id": oid}, ...)` on the CTF collection. -/
def updateCtfIn (l : List CTFRec) (oid : Nat) (f : CTFRec → CTFRec) :
    List CTFRec :=
  l.map fun c => if c.oid == oid then f c else c

/-! ## `Eruditus.create_ctf` (lines 60-151) -/

/-- `discord.utils.get(guild.roles, name=name)` then `guild.create_role`
if absent (lines 81-87). -/
def ensureRole (g : Guild) (name : String) : Guild × Nat × List Effect :=
  match g.roles.find? (fun r => r.2 == name) with
  | some r => (g, r.1, [])
  | none =>
    ({ g with roles := g.roles ++ [(g.nextId, name)], nextId := g.nextId + 1 },
     g.nextId, [Effect.createRole name])

/-- `discord.utils.get(guild.categories, name=name)` then
`guild.create_category(name=f"{glyph} {name}")` if absent (lines 95-100).
Note the lookup uses the bare `name` while creation uses the
glyph-prefixed name. -/
def ensureCategory (g : Guild) (lookupName createName : String) :
    Guild × Nat × List Effect :=
  match g.categories.find? (fun c => c.2 == lookupName) with
  | some c => (g, c.1, [])
  | none =>
    ({ g with
       categories := g.categories ++ [(g.nextId, createName)],
       nextId := g.nextId + 1 },
     g.nextId, [Effect.createCategory createName])

/-- The unconditional channel creations of `create_ctf` (lines 102-127):
general text, general voice, then the six private sub-channels. Returns
the ids of (credentials, notes, bot-cmds, announcements, solves,
scoreboard). -/
def create_ctf_channels (g : Guild) (catId : Nat) :
    Guild × (Nat × Nat × Nat × Nat × Nat × Nat) × List Effect :=
  let r₁ := createTextChannelG g "general" (some catId)
  let r₂ := createVoiceChannelG r₁.1 "general" (some catId)
  let r₃ := createTextChannelG r₂.1 "🔑-credentials" (some catId)
  let r₄ := createTextChannelG r₃.1 "📝-notes" (some catId)
  let r₅ := createTextChannelG r₄.1 "🤖-bot-cmds" (some catId)
  let r₆ := createTextChannelG r₅.1 "📣-announcements" (some catId)
  let r₇ := createTextChannelG r₆.1 "🎉-solves" (some catId)
  let r₈ := createTextChannelG r₇.1 "📈-scoreboard" (some catId)
  (r₈.1, (r₃.2, r₄.2, r₅.2, r₆.2, r₇.2, r₈.2),
   [Effect.createTextChannel "general" (some catId),
    Effect.createVoiceChannel "general" (some catId),
    Effect.createTextChannel "🔑-credentials" (some catId),
    Effect.createTextChannel "📝-notes" (some catId),
    Effect.createTextChannel "🤖-bot-cmds" (some catId),
    Effect.createTextChannel "📣-announcements" (some catId),
    Effect.createTextChannel "🎉-solves" (some catId),
    Effect.createTextChannel "📈-scoreboard" (some catId)])

/-- The body of `create_ctf` past the early-return duplicate check:
ensure role and category, create the channels unconditionally, insert
the CTF document. -/
def create_ctf_fresh (s : Sys) (name : String) (live : Bool) :
    Sys × List Effect × Option CTFRec :=
  let rr := ensureRole s.guild name
  let glyph : String := if live then "🔴" else "⏰"
  let rc := ensureCategory rr.1 name (glyph ++ " " ++ name)
  let rch := create_ctf_channels rc.1 rc.2.1
  let ids := rch.2.1
  let ctf : CTFRec :=
    { oid := s.nextOid
      name := name
      archived := false
      ended := false
      credentials := ⟨none, none, none⟩
      challenges := []
      guild_role := rr.2.1
      guild_category := rc.2.1
      chan_announcements := ids.2.2.2.1
      chan_credentials := ids.1
      chan_scoreboard := ids.2.2.2.2.2
      chan_solves := ids.2.2.2.2.1
      chan_notes := ids.2.1
      chan_botcmds := ids.2.2.1 }
  ({ s with
     guild := rch.1,
     ctfs := s.ctfs ++ [ctf],
     nextOid := s.nextOid + 1 },
   rr.2.2 ++ rc.2.2 ++ rch.2.2 ++ [Effect.insertCtf name],
   some ctf)

/-- `Eruditus.create_ctf`: early-return `None` with no side effects when a
case-insensitive name match already exists (lines 72-75), otherwise create
role/category/channels and insert the record. -/
def create_ctf (s : Sys) (name : String) (live : Bool) :
    Sys × List Effect × Option CTFRec :=
  match findCTF s name with
  | some _ => (s, [], none)
  | none => create_ctf_fresh s name live

/-! ## System-level message helpers -/

/-- Send into a channel, lifting the guild update to `Sys`. -/
def sendS (s : Sys) (chId : Nat) (content : String) : Sys :=
  { s with guild := (sendG s.guild chId content).1 }

/-- Purge a channel, lifting the guild update to `Sys`. -/
def purgeS (s : Sys) (chId : Nat) : Sys :=
  { s with guild := purgeG s.guild chId }

/-- Edit the most recent message of a channel, lifting to `Sys`. -/
def editLastS (s : Sys) (chId : Nat) (content : String) : Sys :=
  { s with guild := editLastG s.guild chId content }

/-- The credentials message posted by `ctf_reminder` (lines 342-348). -/
def credsMessage (url username password : String) : String :=
  "```yaml\n" ++ "CTF platform: " ++ url ++ "\n" ++ "Username: " ++ username
    ++ "\n" ++ "Password: " ++ password ++ "\n" ++ "```"

/-- The below-threshold public notice of `ctf_reminder` (lines 298-304). -/
def belowThresholdNotice (evName : String) (remaining : Int)
    (minPlayers : Nat) : String :=
  "🔔 CTF `" ++ evName ++ "` starting in `" ++ toString remaining ++ "`.\n"
    ++ "This CTF was not created automatically because less than "
    ++ toString minPlayers ++ " players were willing to participate.\n"
    ++ "You can still create it manually using `/ctf createctf`."

/-- The imminent-start public reminder of `ctf_reminder` (lines 361-366). -/
def reminderNotice (ctfName : String) (remaining : Int) : String :=
  "🔔 CTF `" ++ ctfName ++ "` starting in `" ++ toString remaining ++ "`.\n"
    ++ "@here you can still use `/ctf join` to participate in case "
    ++ "you forgot to hit the `Interested` button of the event."

/-! ## `Eruditus.ctf_reminder` (lines 269-366), per scheduled event -/

/-- Tail of the imminent-start flow (lines 353-366): grant the session role
to every interested user, then send the public reminder if a public channel
exists. -/
def reminder_role_and_notice (s : Sys) (pc : Option Nat) (now : Int)
    (ev : ScheduledEvent) (ctf : CTFRec) (acc : List Effect) :
    Sys × List Effect :=
  let roleEffs := ev.users.map fun u => Effect.addRole u ctf.guild_role
  match pc with
  | some ch =>
    let m := reminderNotice ctf.name (ev.startTime - now)
    (sendS s ch m, acc ++ roleEffs ++ [Effect.sendMessage ch m])
  | none => (s, acc ++ roleEffs)

/-- The ≥ `MIN_PLAYERS` branch of `ctf_reminder` (lines 307-366): ensure the
session exists (idempotently), attempt team registration against the URL
parsed from the event location, on success persist the credentials and
overwrite (purge then send) the credentials channel, then grant roles and
remind. `password` stands for `hexlify(os.urandom(32))`; `regSuccess` for
`"success" in await register_to_ctfd(...)` (external collaborator). -/
def reminder_provision (s : Sys) (cfg : Config) (pc : Option Nat) (now : Int)
    (ev : ScheduledEvent) (password : String) (regSuccess : Bool) :
    Sys × List Effect :=
  let res := create_ctf s ev.name false
  let s₁ := res.1
  let octf : Option CTFRec :=
    match res.2.2 with
    | some c => some c
    | none => findCTF s₁ ev.name
  match octf with
  | none => (s₁, res.2.1)
    -- unreachable: `create_ctf` returns `none` exactly when `findCTF`
    -- succeeds on the unchanged state
  | some ctf =>
    let url := parseLocationUrl ev.location
    let acc := res.2.1 ++ [Effect.registerAttempt url]
    if regSuccess then
      let s₂ : Sys :=
        { s₁ with
          ctfs := updateCtfIn s₁.ctfs ctf.oid fun c =>
            { c with credentials := ⟨some url, some cfg.teamName, some password⟩ } }
      let msg := credsMessage url cfg.teamName password
      let s₃ := purgeS s₂ ctf.chan_credentials
      let s₄ := sendS s₃ ctf.chan_credentials msg
      reminder_role_and_notice s₄ pc now ev ctf
        (acc ++ [Effect.updateCtfCredentials ctf.oid,
                 Effect.purgeChannel ctf.chan_credentials,
                 Effect.sendMessage ctf.chan_credentials msg])
    else
      reminder_role_and_notice s₁ pc now ev ctf acc

/-- One scheduled event's processing inside the `ctf_reminder` loop
(lines 289-366). `pc` is the public channel found at lines 282-287. -/
def reminder_step (s : Sys) (cfg : Config) (pc : Option Nat) (now : Int)
    (ev : ScheduledEvent) (password : String) (regSuccess : Bool) :
    Sys × List Effect :=
  if ev.status ≠ EventStatus.scheduled then (s, [])
  else if ev.startTime - now < 3600 then
    if ev.userCount < cfg.minPlayers then
      match pc with
      | some ch =>
        let m := belowThresholdNotice ev.name (ev.startTime - now) cfg.minPlayers
        (sendS s ch m, [Effect.sendMessage ch m])
      | none => (s, [])
    else
      reminder_provision s cfg pc now ev password regSuccess
  else (s, [])

/-- The whole `ctf_reminder` pass: fold over the guild's scheduled events,
each with its freshly generated password and registration outcome. -/
def ctf_reminder (s : Sys) (cfg : Config) (pc : Option Nat) (now : Int) :
    List (ScheduledEvent × String × Bool) → Sys × List Effect
  | [] => (s, [])
  | (ev, pw, ok) :: rest =>
    let r := reminder_step s cfg pc now ev pw ok
    let r' := ctf_reminder r.1 cfg pc now rest
    (r'.1, r.2 ++ r'.2)

/-! ## `Eruditus.on_scheduled_event_update` (lines 185-267) -/

/-- `discord.utils.get(guild.text_channels, category_id=..., name="general")`. -/
def findGeneralChannel (g : Guild) (catId : Nat) : Option TextChannel :=
  g.textChannels.find? fun c => c.categoryId == some catId && c.name == "general"

/-- The scheduled→active branch (lines 192-228): ensure the session exists,
grant the role to interested users, flip the ⏰ marker to 🔴, announce the
start in the session's general channel. -/
def on_event_started (s : Sys) (ev : ScheduledEvent) : Sys × List Effect :=
  let res := create_ctf s ev.name true
  let s₁ := res.1
  let octf : Option CTFRec :=
    match res.2.2 with
    | some c => some c
    | none => findCTF s₁ ev.name
  match octf with
  | none => (s₁, res.2.1)  -- unreachable, as in `reminder_provision`
  | some ctf =>
    let roleEffs := ev.users.map fun u => Effect.addRole u ctf.guild_role
    let s₂ : Sys :=
      { s₁ with guild := editCategoryReplaceG s₁.guild ctf.guild_category "⏰" "🔴" }
    match findGeneralChannel s₂.guild ctf.guild_category with
    | none => (s₂, res.2.1 ++ roleEffs
        ++ [Effect.editCategoryReplace ctf.guild_category "⏰" "🔴"])
    | some ch =>
      let m := "<@&" ++ toString ctf.guild_role
        ++ "> has started!\nGet to work now ⚔️ 🔪 😠 🔨 ⚒️"
      (sendS s₂ ch.id m,
       res.2.1 ++ roleEffs
         ++ [Effect.editCategoryReplace ctf.guild_category "⏰" "🔴",
             Effect.sendMessage ch.id m])

/-- The active→ended branch (lines 230-267): if a session record matches the
event name, flip 🔴 to 🏁, announce the end, and persist `ended = true`.
Silently skipped when no record exists (line 243). -/
def on_event_ended (s : Sys) (ev : ScheduledEvent) : Sys × List Effect :=
  match findCTF s ev.name with
  | none => (s, [])
  | some ctf =>
    let s₁ : Sys :=
      { s with guild := editCategoryReplaceG s.guild ctf.guild_category "🔴" "🏁" }
    let sendRes :=
      match findGeneralChannel s₁.guild ctf.guild_category with
      | none => (s₁, ([] : List Effect))
      | some ch =>
        let m := "🏁 <@&" ++ toString ctf.guild_role
          ++ "> time is up! The CTF has ended."
        (sendS s₁ ch.id m, [Effect.sendMessage ch.id m])
    let s₂ : Sys :=
      { sendRes.1 with
        ctfs := updateCtfIn sendRes.1.ctfs ctf.oid fun c => { c with ended := true } }
    (s₂, [Effect.editCategoryReplace ctf.guild_category "🔴" "🏁"]
      ++ sendRes.2 ++ [Effect.setEnded ctf.oid])

/-- `Eruditus.on_scheduled_event_update`: dispatch on the status change. -/
def on_scheduled_event_update (s : Sys) (before after : EventStatus)
    (ev : ScheduledEvent) : Sys × List Effect :=
  if before == EventStatus.scheduled && after == EventStatus.active then
    on_event_started s ev
  else if before == EventStatus.active && after == EventStatus.ended then
    on_event_ended s ev
  else (s, [])

/-! ## `Eruditus.challenge_puller` (lines 446-568) -/

/-- The category normalization at line 466:
`challenge["category"].title().strip()`. -/
def normalizeChallenge (d : ChallDesc) : ChallDesc :=
  { d with category := strTrim (pyTitle d.category) }

/-- The duplicate check at lines 469-479: `find_one` on the challenge
collection with exact `id` and case-insensitive full matches of `name` and
`category`. -/
def challengeExists (s : Sys) (d : ChallDesc) : Bool :=
  (s.challs.find? fun c =>
    c.id == d.id
      && strLower c.name == strLower d.name
      && strLower c.category == strLower d.category).isSome

/-- The pinned information embed sent in the challenge channel
(lines 498-519), collapsed to its text content. -/
def challengeInfoMessage (credsUrl : String) (d : ChallDesc)
    (nowStr : String) : String :=
  let description := if d.description == "" then "No description." else d.description
  let tags :=
    if d.tags.isEmpty then "No tags." else String.intercalate ", " d.tags
  let files :=
    if d.files.isEmpty then "No files."
    else "\n- " ++ String.intercalate "\n- "
      (d.files.map fun f => stripSlashes credsUrl ++ f)
  d.name ++ " - " ++ toString d.value ++ " points\n"
    ++ "**Category:** " ++ d.category ++ "\n"
    ++ "**Description:** " ++ description ++ "\n"
    ++ "**Files:** " ++ files ++ "\n"
    ++ "**Tags:** " ++ tags ++ "\n" ++ nowStr

/-- The announcement embed sent in the announcements channel
(lines 528-542), collapsed to its text content. -/
def challengeAnnouncement (d : ChallDesc) (roleId : Nat) (nowStr : String) :
    String :=
  "🔔 New challenge created!\n"
    ++ "**Challenge name:** " ++ d.name ++ "\n"
    ++ "**Category:** " ++ d.category ++ "\n\n"
    ++ "Use `/ctf workon " ++ d.name ++ "` or the button to join."
    ++ "\n<@&" ++ toString roleId ++ ">\n" ++ nowStr

/-- One challenge's processing inside the `async for` loop (lines 463-568):
normalize the category, skip if the uniqueness key already matches a stored
record, otherwise create the channel, send and pin the info message,
announce, insert the challenge record, and append its id to the session's
challenge list. `san` is `sanitize_channel_name` (external, `lib/util`);
`credsUrl` is `ctf["credentials"]["url"]`. Returns the updated session
snapshot (the code keeps mutating its local `ctf` dict). -/
def process_challenge (san : String → String) (nowStr : String) (s : Sys)
    (ctf : CTFRec) (credsUrl : String) (d₀ : ChallDesc) :
    Sys × List Effect × CTFRec :=
  let d := normalizeChallenge d₀
  if challengeExists s d then (s, [], ctf)
  else
    let chName := "❌-" ++ san (d.category ++ "-" ++ d.name)
    let rch := createTextChannelG s.guild chName (some ctf.guild_category)
    let infoMsg := challengeInfoMessage credsUrl d nowStr
    let rinfo := sendG rch.1 rch.2 infoMsg
    let annMsg := challengeAnnouncement d ctf.guild_role nowStr
    let rann := sendG rinfo.1 ctf.chan_announcements annMsg
    let chRec : ChallengeRec :=
      { oid := s.nextOid
        id := d.id
        name := d.name
        category := d.category
        channel := rch.2
        solved := false
        blooded := false
        players := []
        announcement := rann.2
        solve_time := none
        solve_announcement := none }
    let ctf' := { ctf with challenges := ctf.challenges ++ [chRec.oid] }
    ({ s with
       guild := rann.1,
       challs := s.challs ++ [chRec],
       ctfs := updateCtfIn s.ctfs ctf.oid fun c =>
         { c with challenges := ctf'.challenges },
       nextOid := s.nextOid + 1 },
     [Effect.createTextChannel chName (some ctf.guild_category),
      Effect.sendMessage rch.2 infoMsg,
      Effect.pinMessage rch.2,
      Effect.sendMessage ctf.chan_announcements annMsg,
      Effect.insertChallenge d.id d.name d.category,
      Effect.updateCtfChallenges ctf.oid ctf'.challenges],
     ctf')

/-- Fold of `process_challenge` over the challenges pulled for one session. -/
def puller_session (san : String → String) (nowStr : String) (s : Sys)
    (ctf : CTFRec) (credsUrl : String) :
    List ChallDesc → Sys × List Effect × CTFRec
  | [] => (s, [], ctf)
  | d :: ds =>
    let r := process_challenge san nowStr s ctf credsUrl d
    let r' := puller_session san nowStr r.1 r.2.2 credsUrl ds
    (r'.1, r.2.1 ++ r'.2.1, r'.2.2)

/-- The loop body of `challenge_puller` over the sessions returned by
`find({"ended": False})`. When a session's credentials URL is unset the
source executes `return` (line 461), which aborts the entire cycle — it is
modelled exactly as such here. `pull` stands for
`pull_challenges(url, username, password)` (external collaborator, keyed by
the URL). -/
def challenge_puller_go (san : String → String) (nowStr : String)
    (pull : String → List ChallDesc) :
    Sys → List CTFRec → Sys × List Effect
  | s, [] => (s, [])
  | s, ctf :: rest =>
    match ctf.credentials.url with
    | none => (s, [])  -- `return`, not `continue`: the whole cycle stops here
    | some url =>
      let r := puller_session san nowStr s ctf url (pull url)
      let r' := challenge_puller_go san nowStr pull r.1 rest
      (r'.1, r.2.1 ++ r'.2)

/-- `Eruditus.challenge_puller`: one periodic cycle. -/
def challenge_puller (san : String → String) (nowStr : String)
    (pull : String → List ChallDesc) (s : Sys) : Sys × List Effect :=
  challenge_puller_go san nowStr pull s (s.ctfs.filter fun c => !c.ended)

/-! ## `Eruditus.scoreboard_updater` (lines 570-625) -/

/-- `max(len(team["name"]) for team in teams)` (line 595). -/
def maxNameLen (teams : List Team) : Nat :=
  teams.foldl (fun acc t => max acc t.name.length) 0

/-- One row of the rendered table (lines 598-602): `+` marks the team's own
row, then rank and name left-justified, then the score. -/
def renderRow (uname : Option String) (w rank : Nat) (t : Team) : String :=
  (if uname == some t.name then "+" else "-") ++ " "
    ++ padRight (toString rank) 10 ++ padRight t.name w
    ++ toString t.score ++ "\n"

/-- The `for rank, team in enumerate(teams, start=1)` accumulation
(lines 597-602). -/
def renderRows (uname : Option String) (w : Nat) :
    Nat → List Team → String
  | _, [] => ""
  | rank, t :: ts => renderRow uname w rank t ++ renderRows uname w (rank + 1) ts

/-- The full scoreboard message (lines 604-613). -/
def scoreboardMessage (nowStr : String) (w : Nat) (body : String) : String :=
  "**Scoreboard as of " ++ nowStr ++ "**" ++ "```diff\n"
    ++ "  " ++ padRight "Rank" 10 ++ padRight "Team" w ++ "Score" ++ "\n"
    ++ body ++ "```"

/-- The fallback text of the `else` branch at line 615. -/
def noSolvesFallback : String := "No solves yet, or platform isn't CTFd."

/-- The message chosen at lines 604-615: the rendered table when the
accumulated scoreboard string is non-empty, the fallback otherwise. -/
def scoreboardText (uname : Option String) (nowStr : String)
    (teams : List Team) : String :=
  let w := maxNameLen teams + 10
  let body := renderRows uname w 1 teams
  if body ≠ "" then scoreboardMessage nowStr w body else noSolvesFallback

/-- One session's processing inside `scoreboard_updater` (lines 579-625):
skip when the URL is unset (`continue`, line 584), when the fetch raises
`InvalidURL` (modelled as `fetch url = none`), or when the standings are
empty; otherwise render the table and edit the most recent scoreboard
message in place, sending a new one only when the channel has none. -/
def scoreboard_session (fetch : String → Option (List Team)) (nowStr : String)
    (s : Sys) (ctf : CTFRec) : Sys × List Effect :=
  match ctf.credentials.url with
  | none => (s, [])
  | some url =>
    match fetch url with
    | none => (s, [])
    | some teams =>
      if teams.isEmpty then (s, [])
      else
        let message := scoreboardText ctf.credentials.username nowStr teams
        match lookupChannel s.guild ctf.chan_scoreboard with
        | none => (s, [])  -- the scoreboard channel always exists in practice
        | some ch =>
          match ch.messages with
          | [] =>
            (sendS s ctf.chan_scoreboard message,
             [Effect.sendMessage ctf.chan_scoreboard message])
          | _ :: _ =>
            (editLastS s ctf.chan_scoreboard message,
             [Effect.editMessage ctf.chan_scoreboard message])

/-- The loop of `scoreboard_updater` over `find({"ended": False})`;
all skip conditions are `continue`, so the fold always visits every
session of the cycle. -/
def scoreboard_updater_go (fetch : String → Option (List Team))
    (nowStr : String) : Sys → List CTFRec → Sys × List Effect
  | s, [] => (s, [])
  | s, ctf :: rest =>
    let r := scoreboard_session fetch nowStr s ctf
    let r' := scoreboard_updater_go fetch nowStr r.1 rest
    (r'.1, r.2 ++ r'.2)

/-- `Eruditus.scoreboard_updater`: one periodic cycle. -/
def scoreboard_updater (fetch : String → Option (List Team)) (nowStr : String)
    (s : Sys) : Sys × List Effect :=
  scoreboard_updater_go fetch nowStr s (s.ctfs.filter fun c => !c.ended)

/-! ## Whole-system events (for the lifecycle claims) -/

/-- Every operation that can touch the persisted store or the workspace:
the scheduled-event handler, the three periodic jobs, the calendar-sync job
(`create_upcoming_events`, which touches only calendar entries, never the
store or channels), and manual session creation (the `/ctf createctf`
command path, which goes through `create_ctf`). -/
inductive SysEvent where
  | evScheduledUpdate (before after : EventStatus) (ev : ScheduledEvent)
  | evReminderPass (cfg : Config) (pc : Option Nat) (now : Int)
      (evs : List (ScheduledEvent × String × Bool))
  | evPullerPass (san : String → String) (nowStr : String)
      (pull : String → List ChallDesc)
  | evScoreboardPass (fetch : String → Option (List Team)) (nowStr : String)
  | evUpcomingSync
  | evManualCreate (name : String) (live : Bool)

/-- One system step. -/
def stepSys (s : Sys) : SysEvent → Sys × List Effect
  | .evScheduledUpdate b a ev => on_scheduled_event_update s b a ev
  | .evReminderPass cfg pc now evs => ctf_reminder s cfg pc now evs
  | .evPullerPass san nowStr pull => challenge_puller san nowStr pull s
  | .evScoreboardPass fetch nowStr => scoreboard_updater fetch nowStr s
  | .evUpcomingSync => (s, [])
  | .evManualCreate name live =>
    let r := create_ctf s name live
    (r.1, r.2.1)

/-- Apply a sequence of system events. -/
def applyEvents (s : Sys) : List SysEvent → Sys
  | [] => s
  | e :: es => applyEvents (stepSys s e).1 es

/-- An active→ended calendar transition. -/
def isActiveToEnded : SysEvent → Prop
  | .evScheduledUpdate b a _ => b = EventStatus.active ∧ a = EventStatus.ended
  | _ => False

instance : DecidablePred isActiveToEnded := fun e => by
  cases e with
  | evScheduledUpdate b a ev => exact inferInstanceAs (Decidable (_ ∧ _))
  | evReminderPass cfg pc now evs => exact inferInstanceAs (Decidable False)
  | evPullerPass san nowStr pull => exact inferInstanceAs (Decidable False)
  | evScoreboardPass fetch nowStr => exact inferInstanceAs (Decidable False)
  | evUpcomingSync => exact inferInstanceAs (Decidable False)
  | evManualCreate name live => exact inferInstanceAs (Decidable False)

/-- The session with Mongo id `oid` is marked ended in `s`. -/
def oidEnded (s : Sys) (oid : Nat) : Prop :=
  ∃ c ∈ s.ctfs, c.oid = oid ∧ c.ended = true

/-- `s` with every ended session dropped from the store. -/
def dropEnded (s : Sys) : Sys :=
  { s with ctfs := s.ctfs.filter fun c => !c.ended }

/-! ## Concrete fixtures for witnesses and counterexamples -/

/-- Identity channel-name sanitizer (a concrete stand-in for the external
`sanitize_channel_name`). -/
def idSan : String → String := fun x => x

def emptyGuildW : Guild := ⟨[], [], [], [], 100⟩

def s0W : Sys := ⟨emptyGuildW, [], [], 0⟩

/-- State after one successful `create_ctf s0W "FooCTF" true`. -/
def sAW : Sys := (create_ctf s0W "FooCTF" true).1

/-- The session record persisted by that call (checked by `decide` below). -/
def ctfAW : CTFRec :=
  ⟨0, "FooCTF", false, false, ⟨none, none, none⟩, [], 100, 101, 107, 104, 109,
    108, 105, 106⟩

/-- A partial-failure state: the workspace artifacts of "FooCTF" exist but
the session record was never persisted. -/
def sPartialW : Sys := ⟨sAW.guild, [], [], 0⟩

def dFirstW : ChallDesc := ⟨"42", "baby-pwn", " pwn ", 100, "", [], []⟩

def dSecondW : ChallDesc := ⟨"42", "Baby-Pwn", "Pwn", 100, "", [], []⟩

/-- First ingestion of the C2 scenario. -/
def pcFirstW : Sys × List Effect × CTFRec :=
  process_challenge idSan "T" sAW ctfAW "http://x" dFirstW

/-- Two not-ended sessions: the first with credentials unset, the second
with credentials set and a challenge available. -/
def ctfNoneW : CTFRec :=
  ⟨50, "NoURL", false, false, ⟨none, none, none⟩, [], 100, 101, 107, 104, 109,
    108, 105, 106⟩

def ctfBW : CTFRec :=
  ⟨51, "HasURL", false, false, ⟨some "http://x", some "team", some "pw"⟩, [],
    100, 101, 107, 104, 109, 108, 105, 106⟩

def s3W : Sys := ⟨sAW.guild, [ctfNoneW, ctfBW], [], 60⟩

def s3W' : Sys := ⟨sAW.guild, [ctfBW, ctfNoneW], [], 60⟩

def pullW : String → List ChallDesc := fun _ => [dFirstW]

/-- A session record with credentials set, for the scoreboard claims. -/
def ctfSBW : CTFRec :=
  ⟨0, "FooCTF", false, false, ⟨some "http://x", some "team", some "pw"⟩, [],
    100, 101, 107, 104, 109, 108, 105, 106⟩

def fetchW : String → Option (List Team) := fun _ => some [⟨"team", 100⟩]

def fetchW2 : String → Option (List Team) :=
  fun _ => some [⟨"other", 200⟩, ⟨"team", 100⟩]

def fetchEmptyW : String → Option (List Team) := fun _ => some []

def cfgW : Config := ⟨5, "TeamW"⟩

/-- The imminent scheduled event of the C7 scenario: starts in 45 minutes,
12 interested participants. -/
def evW : ScheduledEvent :=
  ⟨"FooCTF 2024", EventStatus.scheduled, 2700, 12,
    "https://ctftime.org/event/1 — https://foo.ctfd.io",
    [1, 2, 3, 4, 5, 6, 7, 8, 9, 10, 11, 12]⟩

/-- An imminent event matching the already-created session "FooCTF". -/
def evW6 : ScheduledEvent :=
  ⟨"FooCTF", EventStatus.scheduled, 1800, 9,
    "https://ctftime.org/event/2 — https://bar.ctfd.io", [7]⟩

/-- The active→ended calendar transition for "FooCTF". -/
def evEndW : ScheduledEvent :=
  ⟨"FooCTF", EventStatus.ended, 0, 9, "x — y", []⟩

def evsW9 : List SysEvent :=
  [SysEvent.evScheduledUpdate EventStatus.active EventStatus.ended evEndW]

/-- Challenge-effect classifiers used to state the C8 counterexample. -/
def isInsertChallengeE : Effect → Bool
  | .insertChallenge _ _ _ => true
  | _ => false

def isAnnounceE (annId : Nat) : Effect → Bool
  | .sendMessage ch _ => ch == annId
  | _ => false

/-- The record persisted for "FooCTF" after its calendar event ends. -/
def ctfEndedW : CTFRec :=
  ⟨0, "FooCTF", false, true, ⟨none, none, none⟩, [], 100, 101, 107, 104, 109,
    108, 105, 106⟩

/-- Every session marked ended in `l` is still present, with the same Mongo
id and still marked ended, in `l'`. -/
def EndedPreserved (l l' : List CTFRec) : Prop :=
  ∀ c ∈ l, c.ended = true → ∃ c' ∈ l', c'.oid = c.oid ∧ c'.ended = true

/-- Every session marked ended in `l'` was already marked ended in `l`. -/
def NoNewEnded (l l' : List CTFRec) : Prop :=
  ∀ c' ∈ l', c'.ended = true → ∃ c ∈ l, c.ended = true

/-- `t` agrees with `s` on the guild, the challenge collection and the id
counter, and its session store is `s`'s with every ended session dropped. -/
def CoreEq (s t : Sys) : Prop :=
  t.guild = s.guild ∧ t.challs = s.challs ∧ t.nextOid = s.nextOid
  ∧ t.ctfs = s.ctfs.filter fun c => !c.ended

/-! ## Generic helper lemmas -/

theorem find?_append_of_none {α : Type _} {p : α → Bool} {l₁ l₂ : List α}
    (h : l₁.find? p = none) : (l₁ ++ l₂).find? p = l₂.find? p := by
  rw [List.find?_append, h, Option.none_or]

theorem find?_eq_none_of_all {α : Type _} {p : α → Bool} {l : List α}
    (h : ∀ x ∈ l, ¬ p x) : l.find? p = none :=
  List.find?_eq_none.2 h

theorem filter_eq_nil_of_all {α : Type _} {p : α → Bool} {l : List α}
    (h : ∀ x ∈ l, ¬ p x) : l.filter p = [] :=
  List.filter_eq_nil_iff.2 h

/-! ## C1: idempotent session creation -/

/-- The creation path appends exactly one record, carrying the requested
name, the not-ended state, empty credentials and a fresh Mongo id. -/
theorem create_ctf_fresh_ctfs (s : Sys) (name : String) (live : Bool) :
    ∃ c : CTFRec,
      (create_ctf_fresh s name live).1.ctfs = s.ctfs ++ [c]
      ∧ (create_ctf_fresh s name live).2.2 = some c
      ∧ c.name = name ∧ c.ended = false
      ∧ c.credentials = ⟨none, none, none⟩
      ∧ c.oid = s.nextOid ∧ c.challenges = [] := by
  exact ⟨_, rfl, rfl, rfl, rfl, rfl, rfl, rfl⟩

/-- C1 as amended. For every CTF name without surrounding whitespace, a
second session-creation call with the same name in any letter case, after a
first call has persisted a session record, performs no externally visible
side effects and leaves exactly one persisted session record and one set of
workspace artifacts (the state is returned unchanged). The whitespace
restriction is forced by the code: the duplicate check strips only the
query (line 73) while the raw name is persisted (line 130), so for a name
with surrounding whitespace even an identical second call creates a
duplicate session — see the counterexample below. -/
theorem create_ctf_idempotent (s : Sys) (name₁ name₂ : String)
    (live₁ live₂ : Bool)
    (htrim : strTrim name₁ = name₁)
    (hfresh : findCTF s name₁ = none)
    (hcase : strLower (strTrim name₂) = strLower name₁) :
    ∃ (s₁ : Sys) (effs : List Effect) (c : CTFRec),
      create_ctf s name₁ live₁ = (s₁, effs, some c)
      ∧ create_ctf s₁ name₂ live₂ = (s₁, [], none)
      ∧ (s₁.ctfs.filter fun r =>
          strLower r.name == strLower (strTrim name₂)).length = 1 := by
  obtain ⟨c, hctfs, hsome, hname, -, -, -, -⟩ :=
    create_ctf_fresh_ctfs s name₁ live₁
  have hstep₁ : create_ctf s name₁ live₁
      = ((create_ctf_fresh s name₁ live₁).1,
         (create_ctf_fresh s name₁ live₁).2.1, some c) := by
    rw [create_ctf, hfresh, ← hsome]
  refine ⟨(create_ctf_fresh s name₁ live₁).1,
    (create_ctf_fresh s name₁ live₁).2.1, c, hstep₁, ?_, ?_⟩
  · -- the second call finds the record inserted by the first and no-ops
    have hold : ∀ r ∈ s.ctfs,
        ¬ (strLower r.name == strLower (strTrim name₂)) := by
      intro r hr hmatch
      have := List.find?_eq_none.1 hfresh r hr
      apply this
      rw [htrim, ← hcase]
      exact hmatch
    have hfound : findCTF (create_ctf_fresh s name₁ live₁).1 name₂ = some c := by
      rw [findCTF, hctfs, find?_append_of_none (find?_eq_none_of_all hold)]
      simp [List.find?_cons, hname, hcase]
    rw [create_ctf, hfound]
  · rw [hctfs, List.filter_append]
    rw [filter_eq_nil_of_all (by
      intro r hr hmatch
      have := List.find?_eq_none.1 hfresh r hr
      apply this
      rw [htrim, ← hcase]
      exact hmatch)]
    simp [hname, hcase]

/-- Witness for C1: "FooCTF" created in the empty system, then re-requested
as "fooctf". -/
theorem create_ctf_idempotent_witness :
    ∃ (s₁ : Sys) (effs : List Effect) (c : CTFRec),
      create_ctf s0W "FooCTF" true = (s₁, effs, some c)
      ∧ create_ctf s₁ "fooctf" false = (s₁, [], none)
      ∧ (s₁.ctfs.filter fun r =>
          strLower r.name == strLower (strTrim "fooctf")).length = 1 :=
  create_ctf_idempotent s0W "FooCTF" "fooctf" true false (by decide)
    (by decide) (by decide)

/-- Counterexample to C1 as stated. For the name `" Foo"` (surrounding
whitespace, same name and case on both calls), the duplicate check strips
only the query while the record stores the raw name, so the anchored
case-insensitive match never finds it: the second call persists a second
session record, emits a second store insert, and creates duplicate
workspace artifacts (two "general" channels). -/
theorem create_ctf_untrimmed_duplicate :
    (create_ctf (create_ctf s0W " Foo" true).1 " Foo" true).1.ctfs.length = 2
    ∧ Effect.insertCtf " Foo"
        ∈ (create_ctf (create_ctf s0W " Foo" true).1 " Foo" true).2.1
    ∧ ((create_ctf (create_ctf s0W " Foo" true).1 " Foo" true).1.guild.textChannels.countP
        fun ch => ch.name == "general") = 2 :=
  ⟨by decide, by decide, by decide⟩

/-! ## C2: task re-ingestion is a no-op -/

/-- C2. Re-ingesting a task descriptor whose external id equals a stored
task's id, whose name matches the stored name case-insensitively, and whose
category matches the stored category case-insensitively after title-casing
and trimming, is a no-op: no store insert, no channel, no effect at all. -/
theorem challenge_reingest_noop (san : String → String) (nowStr : String)
    (s : Sys) (ctf : CTFRec) (credsUrl : String) (d : ChallDesc)
    (h : ∃ stored ∈ s.challs,
      stored.id = d.id
      ∧ strLower stored.name = strLower d.name
      ∧ strLower stored.category = strLower (strTrim (pyTitle d.category))) :
    process_challenge san nowStr s ctf credsUrl d = (s, [], ctf) := by
  have hex : challengeExists s (normalizeChallenge d) = true := by
    rw [challengeExists, Option.isSome_iff_exists]
    obtain ⟨stored, hmem, hid, hname, hcat⟩ := h
    have : (s.challs.find? fun c =>
        c.id == (normalizeChallenge d).id
          && strLower c.name == strLower (normalizeChallenge d).name
          && strLower c.category
              == strLower (normalizeChallenge d).category).isSome := by
      rw [List.find?_isSome]
      exact ⟨stored, hmem, by
        simp [normalizeChallenge, hid, hname, hcat]⟩
    obtain ⟨a, ha⟩ := Option.isSome_iff_exists.1 this
    exact ⟨a, ha⟩
  rw [process_challenge, hex]
  simp

/-- Witness for C2: the spec's scenario, `{id: "42", name: "baby-pwn",
category: " pwn "}` ingested first, then `{id: "42", name: "Baby-Pwn",
category: "Pwn"}` is a no-op. -/
theorem challenge_reingest_noop_witness :
    process_challenge idSan "T" pcFirstW.1 pcFirstW.2.2 "http://x" dSecondW
      = (pcFirstW.1, [], pcFirstW.2.2) :=
  challenge_reingest_noop idSan "T" pcFirstW.1 pcFirstW.2.2 "http://x"
    dSecondW (by decide)

/-! ## C3: the unset-URL `return` aborts the whole puller cycle -/

/-- C3 (failing input). With two not-ended sessions where the first has no
credentials URL and the second has a URL with one unseen challenge
available, the puller cycle performs nothing at all — the `return` at
line 461 aborts the cycle instead of skipping the session. With the
sessions in the opposite store order, the same cycle ingests the second
session's challenge, showing that the first session's unset URL is what
prevented the second session's processing. -/
theorem challenge_puller_abort_on_unset_url :
    challenge_puller idSan "T" pullW s3W = (s3W, [])
    ∧ (challenge_puller idSan "T" pullW s3W').1.challs.length = 1 := by
  constructor
  · rfl
  · rfl

/-! ## C4: check-then-create only holds for the role -/

/-- Counterexample to C4 as stated. In the partial-failure state where all
of "FooCTF"'s workspace artifacts exist but no session record was
persisted, re-invoking session creation duplicates the category and the
sub-channels (two "general" text channels, two "🔴 FooCTF" categories,
two credentials channels). -/
theorem create_ctf_reinvoke_duplicates :
    ((create_ctf sPartialW "FooCTF" true).1.guild.textChannels.countP
        fun ch => ch.name == "general") = 2
    ∧ ((create_ctf sPartialW "FooCTF" true).1.guild.categories.countP
        fun c => c.2 == "🔴 FooCTF") = 2
    ∧ ((create_ctf sPartialW "FooCTF" true).1.guild.textChannels.countP
        fun ch => ch.name == "🔑-credentials") = 2 := by
  exact ⟨by decide, by decide, by decide⟩

/-- C4 as amended. Only the role creation (and the category lookup, though
against the bare name that never matches the glyph-prefixed created name)
is check-then-create: re-invoking session creation after a partial failure
reuses an existing role with that name and emits no role creation, but
unconditionally creates the seven text channels again, and re-creates the
category whenever no category carries the bare session name. -/
theorem create_ctf_reinvoke_role_only (s : Sys) (name : String) (live : Bool)
    (hfresh : findCTF s name = none)
    (hrole : ∃ r ∈ s.guild.roles, r.2 = name)
    (hcat : ∀ c ∈ s.guild.categories, c.2 ≠ name) :
    (create_ctf s name live).1.guild.roles = s.guild.roles
    ∧ (∀ e ∈ (create_ctf s name live).2.1, e ≠ Effect.createRole name)
    ∧ (create_ctf s name live).1.guild.textChannels.length
        = s.guild.textChannels.length + 7
    ∧ Effect.createCategory ((if live then "🔴" else "⏰") ++ " " ++ name)
        ∈ (create_ctf s name live).2.1 := by
  obtain ⟨r, hrmem, hrname⟩ := hrole
  have hfind : (s.guild.roles.find? fun r => r.2 == name).isSome := by
    rw [List.find?_isSome]
    exact ⟨r, hrmem, by simp [hrname]⟩
  obtain ⟨r₀, hr₀⟩ := Option.isSome_iff_exists.1 hfind
  have hcfind : (s.guild.roles.find? fun r => r.2 == name) = some r₀ := hr₀
  have hcatfind : (s.guild.categories.find? fun c => c.2 == name) = none :=
    find?_eq_none_of_all (by intro c hc; simp [hcat c hc])
  rw [create_ctf, hfresh]
  rw [create_ctf_fresh, ensureRole, hcfind, ensureCategory, hcatfind]
  refine ⟨rfl, ?_, ?_, ?_⟩
  · intro e he
    simp [create_ctf_channels, createTextChannelG, createVoiceChannelG] at he
    rcases he with h | h | h | h | h | h | h | h | h | h <;> simp [h]
  · simp [create_ctf_channels, createTextChannelG, createVoiceChannelG]
  · simp [create_ctf_channels, createTextChannelG, createVoiceChannelG]

/-- Witness for the amended C4, at the partial-failure state. -/
theorem create_ctf_reinvoke_role_only_witness :
    (create_ctf sPartialW "FooCTF" true).1.guild.roles = sPartialW.guild.roles
    ∧ (∀ e ∈ (create_ctf sPartialW "FooCTF" true).2.1,
        e ≠ Effect.createRole "FooCTF")
    ∧ (create_ctf sPartialW "FooCTF" true).1.guild.textChannels.length
        = sPartialW.guild.textChannels.length + 7
    ∧ Effect.createCategory ((if true then "🔴" else "⏰") ++ " " ++ "FooCTF")
        ∈ (create_ctf sPartialW "FooCTF" true).2.1 :=
  create_ctf_reinvoke_role_only sPartialW "FooCTF" true (by decide)
    (by decide) (by decide)

/-! ## Channel lookup/update lemmas -/

theorem find?_id_map_update (l : List TextChannel) (chId : Nat)
    (f : TextChannel → TextChannel) (hid : ∀ c, (f c).id = c.id) :
    ((l.map fun c => if c.id == chId then f c else c).find?
        fun c => c.id == chId)
      = Option.map f (l.find? fun c => c.id == chId) := by
  induction l with
  | nil => rfl
  | cons c cs ih =>
    by_cases hcid : c.id = chId
    · simp [List.find?_cons, hcid, hid, -List.find?_map]
    · simp [List.find?_cons, hcid, -List.find?_map]
      simpa using ih

theorem find?_id_map_update_ne (l : List TextChannel) (chId chId' : Nat)
    (f : TextChannel → TextChannel) (hid : ∀ c, (f c).id = c.id)
    (hne : chId' ≠ chId) :
    ((l.map fun c => if c.id == chId then f c else c).find?
        fun c => c.id == chId')
      = l.find? fun c => c.id == chId' := by
  induction l with
  | nil => rfl
  | cons c cs ih =>
    by_cases hcid : c.id = chId
    · have hne' : chId ≠ chId' := fun hx => hne hx.symm
      simp [List.find?_cons, hcid, hid, hne', -List.find?_map]
      simpa using ih
    · by_cases hcid' : c.id = chId'
      · simp [List.find?_cons, hcid, hcid', hne, -List.find?_map]
      · simp [List.find?_cons, hcid, hcid', -List.find?_map]
        simpa using ih

theorem lookupChannel_modify_self (g : Guild) (chId : Nat)
    (f : TextChannel → TextChannel) (hid : ∀ c, (f c).id = c.id) :
    lookupChannel (modifyChannel g chId f) chId
      = Option.map f (lookupChannel g chId) :=
  find?_id_map_update g.textChannels chId f hid

theorem lookupChannel_modify_ne (g : Guild) (chId chId' : Nat)
    (f : TextChannel → TextChannel) (hid : ∀ c, (f c).id = c.id)
    (hne : chId' ≠ chId) :
    lookupChannel (modifyChannel g chId f) chId' = lookupChannel g chId' :=
  find?_id_map_update_ne g.textChannels chId chId' f hid hne

theorem lookupChannel_sendG_self (g : Guild) (chId : Nat) (m : String) :
    lookupChannel (sendG g chId m).1 chId
      = Option.map (fun c => { c with messages := ⟨g.nextId, m⟩ :: c.messages })
          (lookupChannel g chId) :=
  lookupChannel_modify_self g chId _ (fun _ => rfl)

theorem lookupChannel_sendG_ne (g : Guild) (chId chId' : Nat) (m : String)
    (hne : chId' ≠ chId) :
    lookupChannel (sendG g chId m).1 chId' = lookupChannel g chId' :=
  lookupChannel_modify_ne g chId chId' _ (fun _ => rfl) hne

theorem lookupChannel_purgeG_self (g : Guild) (chId : Nat) :
    lookupChannel (purgeG g chId) chId
      = Option.map (fun c => { c with messages := [] }) (lookupChannel g chId) :=
  lookupChannel_modify_self g chId _ (fun _ => rfl)

theorem lookupChannel_editLastG_self (g : Guild) (chId : Nat) (m : String) :
    lookupChannel (editLastG g chId m) chId
      = Option.map (fun c =>
          { c with
            messages :=
              match c.messages with
              | [] => []
              | x :: rest => { x with content := m } :: rest })
          (lookupChannel g chId) :=
  lookupChannel_modify_self g chId _ (fun _ => rfl)

/-! ## C5: the scoreboard message is edited in place -/

/-- One successful scoreboard pass for a session with a set URL and
non-empty standings: edit the most recent message when the channel has one,
send a first message otherwise. -/
theorem scoreboard_session_eq (fetch : String → Option (List Team))
    (nowStr : String) (s : Sys) (ctf : CTFRec) (url : String)
    (teams : List Team) (ch : TextChannel)
    (hurl : ctf.credentials.url = some url)
    (hf : fetch url = some teams) (hne : teams ≠ [])
    (hch : lookupChannel s.guild ctf.chan_scoreboard = some ch) :
    scoreboard_session fetch nowStr s ctf
      = match ch.messages with
        | [] =>
          (sendS s ctf.chan_scoreboard
            (scoreboardText ctf.credentials.username nowStr teams),
           [Effect.sendMessage ctf.chan_scoreboard
             (scoreboardText ctf.credentials.username nowStr teams)])
        | _ :: _ =>
          (editLastS s ctf.chan_scoreboard
            (scoreboardText ctf.credentials.username nowStr teams),
           [Effect.editMessage ctf.chan_scoreboard
             (scoreboardText ctf.credentials.username nowStr teams)]) := by
  obtain ⟨t, ts, rfl⟩ := List.exists_cons_of_ne_nil hne
  simp only [scoreboard_session, hurl, hf, List.isEmpty_cons, hch]
  cases ch.messages <;> rfl

/-- C5. For a session with a set credentials URL, two consecutive successful
scoreboard fetches result in one scoreboard message being edited in place
(the second pass always edits, never sends), a new message being sent only
when the scoreboard channel held no message at all, and the channel's
message count ending at `max (original count) 1`. -/
theorem scoreboard_edit_in_place
    (fetch₁ fetch₂ : String → Option (List Team)) (nowStr₁ nowStr₂ : String)
    (s : Sys) (ctf : CTFRec) (url : String) (teams₁ teams₂ : List Team)
    (ch : TextChannel)
    (hurl : ctf.credentials.url = some url)
    (h₁ : fetch₁ url = some teams₁) (hne₁ : teams₁ ≠ [])
    (h₂ : fetch₂ url = some teams₂) (hne₂ : teams₂ ≠ [])
    (hch : lookupChannel s.guild ctf.chan_scoreboard = some ch) :
    ∃ m₁ m₂ : String,
      (ch.messages = [] →
        (scoreboard_session fetch₁ nowStr₁ s ctf).2
          = [Effect.sendMessage ctf.chan_scoreboard m₁])
      ∧ (ch.messages ≠ [] →
        (scoreboard_session fetch₁ nowStr₁ s ctf).2
          = [Effect.editMessage ctf.chan_scoreboard m₁])
      ∧ (scoreboard_session fetch₂ nowStr₂
            (scoreboard_session fetch₁ nowStr₁ s ctf).1 ctf).2
          = [Effect.editMessage ctf.chan_scoreboard m₂]
      ∧ ∃ ch₂,
          lookupChannel (scoreboard_session fetch₂ nowStr₂
              (scoreboard_session fetch₁ nowStr₁ s ctf).1 ctf).1.guild
            ctf.chan_scoreboard = some ch₂
          ∧ ch₂.messages.length = max ch.messages.length 1 := by
  refine ⟨scoreboardText ctf.credentials.username nowStr₁ teams₁,
    scoreboardText ctf.credentials.username nowStr₂ teams₂, ?_⟩
  have hstep₁ := scoreboard_session_eq fetch₁ nowStr₁ s ctf url teams₁ ch
    hurl h₁ hne₁ hch
  rcases hm : ch.messages with _ | ⟨m0, rest⟩
  · -- channel initially empty: first pass sends, second edits
    rw [hm] at hstep₁
    have hs₁ : (scoreboard_session fetch₁ nowStr₁ s ctf).1
        = sendS s ctf.chan_scoreboard
            (scoreboardText ctf.credentials.username nowStr₁ teams₁) := by
      rw [hstep₁]
    have hch₁ : lookupChannel (scoreboard_session fetch₁ nowStr₁ s ctf).1.guild
        ctf.chan_scoreboard
        = some { ch with messages := [⟨s.guild.nextId,
            scoreboardText ctf.credentials.username nowStr₁ teams₁⟩] } := by
      rw [hs₁]
      show lookupChannel (sendG s.guild ctf.chan_scoreboard _).1 _ = _
      rw [lookupChannel_sendG_self, hch]
      simp [hm]
    have hstep₂ := scoreboard_session_eq fetch₂ nowStr₂
      (scoreboard_session fetch₁ nowStr₁ s ctf).1 ctf url teams₂ _
      hurl h₂ hne₂ hch₁
    simp only at hstep₂
    refine ⟨fun _ => by rw [hstep₁], fun hcon => absurd rfl hcon, ?_, ?_⟩
    · rw [hstep₂]
    · have hs₂ : (scoreboard_session fetch₂ nowStr₂
          (scoreboard_session fetch₁ nowStr₁ s ctf).1 ctf).1
          = editLastS (scoreboard_session fetch₁ nowStr₁ s ctf).1
              ctf.chan_scoreboard
              (scoreboardText ctf.credentials.username nowStr₂ teams₂) := by
        rw [hstep₂]
      rw [hs₂]
      show ∃ ch₂, lookupChannel (editLastG _ _ _) _ = some ch₂ ∧ _
      rw [lookupChannel_editLastG_self, hch₁]
      refine ⟨_, rfl, ?_⟩
      simp [hm]
  · -- channel already has messages: both passes edit
    rw [hm] at hstep₁
    have hs₁ : (scoreboard_session fetch₁ nowStr₁ s ctf).1
        = editLastS s ctf.chan_scoreboard
            (scoreboardText ctf.credentials.username nowStr₁ teams₁) := by
      rw [hstep₁]
    have hch₁ : lookupChannel (scoreboard_session fetch₁ nowStr₁ s ctf).1.guild
        ctf.chan_scoreboard
        = some { ch with messages :=
            { m0 with content :=
                scoreboardText ctf.credentials.username nowStr₁ teams₁ } :: rest } := by
      rw [hs₁]
      show lookupChannel (editLastG s.guild ctf.chan_scoreboard _) _ = _
      rw [lookupChannel_editLastG_self, hch]
      simp [hm]
    have hstep₂ := scoreboard_session_eq fetch₂ nowStr₂
      (scoreboard_session fetch₁ nowStr₁ s ctf).1 ctf url teams₂ _
      hurl h₂ hne₂ hch₁
    simp only at hstep₂
    refine ⟨fun hcon => by simp at hcon, fun _ => by rw [hstep₁],
      ?_, ?_⟩
    · rw [hstep₂]
    · have hs₂ : (scoreboard_session fetch₂ nowStr₂
          (scoreboard_session fetch₁ nowStr₁ s ctf).1 ctf).1
          = editLastS (scoreboard_session fetch₁ nowStr₁ s ctf).1
              ctf.chan_scoreboard
              (scoreboardText ctf.credentials.username nowStr₂ teams₂) := by
        rw [hstep₂]
      rw [hs₂]
      show ∃ ch₂, lookupChannel (editLastG _ _ _) _ = some ch₂ ∧ _
      rw [lookupChannel_editLastG_self, hch₁]
      refine ⟨_, rfl, ?_⟩
      simp [hm]

/-- Witness for C5: the "FooCTF" session with credentials set, its empty
scoreboard channel, and two successful fetches. -/
theorem scoreboard_edit_in_place_witness :
    ∃ m₁ m₂ : String,
      ((⟨109, "📈-scoreboard", some 101, []⟩ : TextChannel).messages = [] →
        (scoreboard_session fetchW "T1" sAW ctfSBW).2
          = [Effect.sendMessage ctfSBW.chan_scoreboard m₁])
      ∧ ((⟨109, "📈-scoreboard", some 101, []⟩ : TextChannel).messages ≠ [] →
        (scoreboard_session fetchW "T1" sAW ctfSBW).2
          = [Effect.editMessage ctfSBW.chan_scoreboard m₁])
      ∧ (scoreboard_session fetchW2 "T2"
            (scoreboard_session fetchW "T1" sAW ctfSBW).1 ctfSBW).2
          = [Effect.editMessage ctfSBW.chan_scoreboard m₂]
      ∧ ∃ ch₂,
          lookupChannel (scoreboard_session fetchW2 "T2"
              (scoreboard_session fetchW "T1" sAW ctfSBW).1 ctfSBW).1.guild
            ctfSBW.chan_scoreboard = some ch₂
          ∧ ch₂.messages.length
              = max (⟨109, "📈-scoreboard", some 101, []⟩
                  : TextChannel).messages.length 1 :=
  scoreboard_edit_in_place fetchW fetchW2 "T1" "T2" sAW ctfSBW "http://x"
    [⟨"team", 100⟩] [⟨"other", 200⟩, ⟨"team", 100⟩] _ (by decide) (by decide)
    (by decide) (by decide) (by decide) (by decide)

/-! ## C6: credentials are overwritten, never appended -/

/-- Reduction of `reminder_step` to the provisioning flow when the event is
scheduled, imminent, and has enough interested players. -/
theorem reminder_step_provision (s : Sys) (cfg : Config) (pc : Option Nat)
    (now : Int) (ev : ScheduledEvent) (password : String) (regSuccess : Bool)
    (h1 : ev.status = EventStatus.scheduled)
    (h2 : ev.startTime - now < 3600)
    (h3 : ¬ ev.userCount < cfg.minPlayers) :
    reminder_step s cfg pc now ev password regSuccess
      = reminder_provision s cfg pc now ev password regSuccess := by
  simp only [reminder_step]
  rw [if_neg (by simp [h1]), if_pos h2, if_neg h3]

/-- C6. After a successful credential-provisioning pass for a session, the
credentials channel holds exactly one posting, and it is the message built
from the most recently generated URL, username and password — whatever the
channel held before (so repeated passes can never accumulate stale
postings). -/
theorem credentials_overwrite (s : Sys) (cfg : Config) (pc : Option Nat)
    (now : Int) (ev : ScheduledEvent) (password : String) (ctf : CTFRec)
    (ch : TextChannel)
    (hsch : ev.status = EventStatus.scheduled)
    (himm : ev.startTime - now < 3600)
    (hmin : ¬ ev.userCount < cfg.minPlayers)
    (hfound : findCTF s ev.name = some ctf)
    (hch : lookupChannel s.guild ctf.chan_credentials = some ch)
    (hpc : ∀ p, pc = some p → p ≠ ctf.chan_credentials) :
    ∃ ch',
      lookupChannel (reminder_step s cfg pc now ev password true).1.guild
        ctf.chan_credentials = some ch'
      ∧ ch'.messages.map Message.content
          = [credsMessage (parseLocationUrl ev.location) cfg.teamName
              password] := by
  rw [reminder_step_provision s cfg pc now ev password true hsch himm hmin]
  simp only [reminder_provision, create_ctf, hfound]
  rcases pc with _ | p
  · simp only [reminder_role_and_notice]
    show ∃ ch', lookupChannel
      (sendG (purgeG s.guild ctf.chan_credentials) ctf.chan_credentials _).1
        ctf.chan_credentials = some ch' ∧ _
    rw [lookupChannel_sendG_self, lookupChannel_purgeG_self, hch]
    exact ⟨_, rfl, rfl⟩
  · simp only [reminder_role_and_notice]
    have hne : p ≠ ctf.chan_credentials := hpc p rfl
    show ∃ ch', lookupChannel (sendG _ p _).1 ctf.chan_credentials
      = some ch' ∧ _
    rw [lookupChannel_sendG_ne _ _ _ _ (fun hx => hne hx.symm)]
    show ∃ ch', lookupChannel
      (sendG (purgeG s.guild ctf.chan_credentials) ctf.chan_credentials _).1
        ctf.chan_credentials = some ch' ∧ _
    rw [lookupChannel_sendG_self, lookupChannel_purgeG_self, hch]
    exact ⟨_, rfl, rfl⟩

/-- Witness for C6: a second provisioning pass for "FooCTF" whose
credentials channel already holds a (stale) posting still leaves exactly
the latest posting. -/
theorem credentials_overwrite_witness :
    ∃ ch',
      lookupChannel (reminder_step sAW cfgW (some 42) 0 evW6 "pw2" true).1.guild
        ctfAW.chan_credentials = some ch'
      ∧ ch'.messages.map Message.content
          = [credsMessage (parseLocationUrl evW6.location) cfgW.teamName
              "pw2"] :=
  credentials_overwrite sAW cfgW (some 42) 0 evW6 "pw2" ctfAW
    ⟨104, "🔑-credentials", some 101, []⟩ (by decide) (by decide) (by decide)
    (by decide) (by decide) (by decide)

/-! ## C7: the imminent-start reminder flow -/

theorem ensureRole_textChannels (g : Guild) (name : String) :
    (ensureRole g name).1.textChannels = g.textChannels := by
  rcases h : g.roles.find? (fun r => r.2 == name) with _ | r <;>
    simp [ensureRole, h]

theorem ensureRole_nextId_le (g : Guild) (name : String) :
    g.nextId ≤ (ensureRole g name).1.nextId := by
  rcases h : g.roles.find? (fun r => r.2 == name) with _ | r <;>
    simp [ensureRole, h]

theorem ensureCategory_textChannels (g : Guild) (l c : String) :
    (ensureCategory g l c).1.textChannels = g.textChannels := by
  rcases h : g.categories.find? (fun x => x.2 == l) with _ | x <;>
    simp [ensureCategory, h]

theorem ensureCategory_nextId_le (g : Guild) (l c : String) :
    g.nextId ≤ (ensureCategory g l c).1.nextId := by
  rcases h : g.categories.find? (fun x => x.2 == l) with _ | x <;>
    simp [ensureCategory, h]

/-- After the unconditional channel creations, the credentials channel is
the freshly created empty one, with id `nextId + 2`. -/
theorem create_ctf_channels_creds (g : Guild) (catId : Nat)
    (hwf : ∀ c ∈ g.textChannels, c.id < g.nextId) :
    (create_ctf_channels g catId).2.1.1 = g.nextId + 2
    ∧ lookupChannel (create_ctf_channels g catId).1 (g.nextId + 2)
        = some ⟨g.nextId + 2, "🔑-credentials", some catId, []⟩ := by
  have hnone : g.textChannels.find? (fun c => c.id == g.nextId + 2) = none :=
    find?_eq_none_of_all (by
      intro c hc
      have := hwf c hc
      simp only [beq_iff_eq]
      omega)
  have h0 : (g.nextId == g.nextId + 2) = false := by
    simp only [beq_eq_false_iff_ne]
    omega
  refine ⟨rfl, ?_⟩
  simp only [create_ctf_channels, createTextChannelG, createVoiceChannelG,
    lookupChannel, List.append_assoc, List.cons_append, List.nil_append]
  rw [find?_append_of_none hnone]
  simp [List.find?_cons, h0]

/-- The fresh-creation path: the persisted record, and the freshly created
empty credentials channel it references. -/
theorem create_ctf_fresh_creds (s : Sys) (name : String) (live : Bool)
    (hwf : ∀ c ∈ s.guild.textChannels, c.id < s.guild.nextId) :
    ∃ c : CTFRec,
      (create_ctf_fresh s name live).2.2 = some c
      ∧ (create_ctf_fresh s name live).1.ctfs = s.ctfs ++ [c]
      ∧ c.name = name ∧ c.ended = false ∧ c.oid = s.nextOid
      ∧ s.guild.nextId < c.chan_credentials
      ∧ lookupChannel (create_ctf_fresh s name live).1.guild
          c.chan_credentials
          = some ⟨c.chan_credentials, "🔑-credentials",
              some c.guild_category, []⟩ := by
  have h1 := ensureRole_nextId_le s.guild name
  have h2 := ensureCategory_nextId_le (ensureRole s.guild name).1 name
    ((if live then "🔴" else "⏰") ++ " " ++ name)
  have hwf₂ : ∀ c ∈ (ensureCategory (ensureRole s.guild name).1 name
      ((if live then "🔴" else "⏰") ++ " " ++ name)).1.textChannels,
      c.id < (ensureCategory (ensureRole s.guild name).1 name
        ((if live then "🔴" else "⏰") ++ " " ++ name)).1.nextId := by
    rw [ensureCategory_textChannels, ensureRole_textChannels]
    intro c hc
    have := hwf c hc
    omega
  obtain ⟨hcid, hlook⟩ := create_ctf_channels_creds
    ((ensureCategory (ensureRole s.guild name).1 name
      ((if live then "🔴" else "⏰") ++ " " ++ name)).1)
    ((ensureCategory (ensureRole s.guild name).1 name
      ((if live then "🔴" else "⏰") ++ " " ++ name)).2.1) hwf₂
  refine ⟨_, rfl, rfl, rfl, rfl, rfl, ?_, ?_⟩
  · have hlt : s.guild.nextId < (ensureCategory (ensureRole s.guild name).1
        name ((if live then "🔴" else "⏰") ++ " " ++ name)).1.nextId + 2 := by
      omega
    exact hlt
  · exact hlook

/-- C7. For a scheduled calendar event and a not-yet-created session: a
session is created only when the event starts in less than one hour and the
interested count reaches the configured minimum; below the threshold the
cycle posts at most one public notice and creates no session; at or above
the threshold it attempts team registration against the URL parsed from the
event's location and, on success, leaves exactly one credentials message in
the new session's credentials channel and grants the session role to every
interested participant. -/
theorem reminder_flow (s : Sys) (cfg : Config) (pc : Option Nat) (now : Int)
    (ev : ScheduledEvent) (password : String) (regSuccess : Bool)
    (hsch : ev.status = EventStatus.scheduled)
    (hfresh : findCTF s ev.name = none)
    (hwf : ∀ c ∈ s.guild.textChannels, c.id < s.guild.nextId)
    (hpc : ∀ p, pc = some p → p < s.guild.nextId) :
    ((∃ n, Effect.insertCtf n
        ∈ (reminder_step s cfg pc now ev password regSuccess).2) →
      ev.startTime - now < 3600 ∧ cfg.minPlayers ≤ ev.userCount)
    ∧ (ev.startTime - now < 3600 → ev.userCount < cfg.minPlayers →
        (reminder_step s cfg pc now ev password regSuccess).1.ctfs = s.ctfs
        ∧ ((reminder_step s cfg pc now ev password regSuccess).2 = []
            ∨ ∃ p m, pc = some p
              ∧ (reminder_step s cfg pc now ev password regSuccess).2
                  = [Effect.sendMessage p m]))
    ∧ (ev.startTime - now < 3600 → ¬ ev.userCount < cfg.minPlayers →
        Effect.registerAttempt (parseLocationUrl ev.location)
            ∈ (reminder_step s cfg pc now ev password regSuccess).2
        ∧ ∃ c ∈ (reminder_step s cfg pc now ev password regSuccess).1.ctfs,
            c.name = ev.name ∧ c.ended = false
            ∧ (∀ u ∈ ev.users, Effect.addRole u c.guild_role
                ∈ (reminder_step s cfg pc now ev password regSuccess).2)
            ∧ (regSuccess = true →
                ∃ ch, lookupChannel
                    (reminder_step s cfg pc now ev password regSuccess).1.guild
                    c.chan_credentials = some ch
                  ∧ ch.messages.map Message.content
                      = [credsMessage (parseLocationUrl ev.location)
                          cfg.teamName password])) := by
  by_cases himm : ev.startTime - now < 3600
  · by_cases hcnt : ev.userCount < cfg.minPlayers
    · -- imminent but below threshold
      have hstep : reminder_step s cfg pc now ev password regSuccess
          = match pc with
            | some ch =>
              (sendS s ch (belowThresholdNotice ev.name (ev.startTime - now)
                cfg.minPlayers),
               [Effect.sendMessage ch (belowThresholdNotice ev.name
                 (ev.startTime - now) cfg.minPlayers)])
            | none => (s, []) := by
        simp only [reminder_step]
        rw [if_neg (by simp [hsch]), if_pos himm, if_pos hcnt]
        rcases pc with _ | p <;> rfl
      refine ⟨?_, ?_, ?_⟩
      · rintro ⟨n, hn⟩
        rw [hstep] at hn
        rcases pc with _ | p <;> simp at hn
      · intro _ _
        rw [hstep]
        rcases pc with _ | p
        · exact ⟨rfl, Or.inl rfl⟩
        · exact ⟨rfl, Or.inr ⟨p, _, rfl, rfl⟩⟩
      · intro _ hcnt'
        exact absurd hcnt hcnt'
    · -- imminent with enough interested players: the provisioning flow
      rw [reminder_step_provision s cfg pc now ev password regSuccess hsch
        himm hcnt]
      obtain ⟨c₀, hsome, hctfs, hname, hended, hoid, hlt, hlook⟩ :=
        create_ctf_fresh_creds s ev.name false hwf
      have hprov : reminder_provision s cfg pc now ev password regSuccess
          = (if regSuccess then
              reminder_role_and_notice
                (sendS (purgeS { (create_ctf_fresh s ev.name false).1 with
                    ctfs := updateCtfIn
                      (create_ctf_fresh s ev.name false).1.ctfs c₀.oid
                      fun c => { c with credentials :=
                        ⟨some (parseLocationUrl ev.location),
                         some cfg.teamName, some password⟩ } }
                  c₀.chan_credentials) c₀.chan_credentials
                  (credsMessage (parseLocationUrl ev.location) cfg.teamName
                    password))
                pc now ev c₀
                ((create_ctf_fresh s ev.name false).2.1
                  ++ [Effect.registerAttempt (parseLocationUrl ev.location)]
                  ++ [Effect.updateCtfCredentials c₀.oid,
                      Effect.purgeChannel c₀.chan_credentials,
                      Effect.sendMessage c₀.chan_credentials
                        (credsMessage (parseLocationUrl ev.location)
                          cfg.teamName password)])
            else
              reminder_role_and_notice (create_ctf_fresh s ev.name false).1
                pc now ev c₀
                ((create_ctf_fresh s ev.name false).2.1
                  ++ [Effect.registerAttempt
                      (parseLocationUrl ev.location)])) := by
        simp only [reminder_provision, create_ctf, hfresh, hsome]
      refine ⟨fun _ => ⟨himm, Nat.le_of_not_lt hcnt⟩,
        fun _ hcnt' => absurd hcnt' hcnt, fun _ _ => ?_⟩
      rw [hprov]
      rcases regSuccess with _ | _
      · -- registration failed: session created, roles granted, no credentials
        simp only [Bool.false_eq_true, if_false]
        rcases pc with _ | p
        · simp only [reminder_role_and_notice]
          refine ⟨by simp, c₀, ?_, hname, hended, ?_, ?_⟩
          · show c₀ ∈ (create_ctf_fresh s ev.name false).1.ctfs
            rw [hctfs]
            simp
          · intro u hu
            simp only [List.mem_append]
            right
            exact List.mem_map.2 ⟨u, hu, rfl⟩
          · intro h
            cases h
        · simp only [reminder_role_and_notice]
          refine ⟨by simp, c₀, ?_, hname, hended, ?_, ?_⟩
          · show c₀ ∈ (create_ctf_fresh s ev.name false).1.ctfs
            rw [hctfs]
            simp
          · intro u hu
            simp only [List.mem_append]
            left; right
            exact List.mem_map.2 ⟨u, hu, rfl⟩
          · intro h
            cases h
      · -- registration succeeded
        simp only [if_true]
        have hmem : (fun c => { c with credentials :=
            (⟨some (parseLocationUrl ev.location), some cfg.teamName,
              some password⟩ : Credentials) }) c₀
            ∈ updateCtfIn (create_ctf_fresh s ev.name false).1.ctfs c₀.oid
              (fun c => { c with credentials :=
                ⟨some (parseLocationUrl ev.location), some cfg.teamName,
                  some password⟩ }) := by
          rw [hctfs, updateCtfIn]
          exact List.mem_map.2 ⟨c₀, by simp, by simp⟩
        rcases pc with _ | p
        · simp only [reminder_role_and_notice]
          refine ⟨by simp, _, hmem, hname, hended, ?_, ?_⟩
          · intro u hu
            simp only [List.mem_append]
            right
            exact List.mem_map.2 ⟨u, hu, rfl⟩
          · intro _
            show ∃ ch, lookupChannel
              (sendG (purgeG (create_ctf_fresh s ev.name false).1.guild
                  c₀.chan_credentials) c₀.chan_credentials
                (credsMessage (parseLocationUrl ev.location) cfg.teamName
                  password)).1 c₀.chan_credentials = some ch ∧ _
            rw [lookupChannel_sendG_self, lookupChannel_purgeG_self, hlook]
            exact ⟨_, rfl, rfl⟩
        · simp only [reminder_role_and_notice]
          have hplt : p < s.guild.nextId := hpc p rfl
          refine ⟨by simp, _, hmem, hname, hended, ?_, ?_⟩
          · intro u hu
            simp only [List.mem_append]
            left; right
            exact List.mem_map.2 ⟨u, hu, rfl⟩
          · intro _
            show ∃ ch, lookupChannel (sendG _ p _).1 c₀.chan_credentials
              = some ch ∧ _
            rw [lookupChannel_sendG_ne _ _ _ _ (by omega)]
            show ∃ ch, lookupChannel
              (sendG (purgeG (create_ctf_fresh s ev.name false).1.guild
                  c₀.chan_credentials) c₀.chan_credentials
                (credsMessage (parseLocationUrl ev.location) cfg.teamName
                  password)).1 c₀.chan_credentials = some ch ∧ _
            rw [lookupChannel_sendG_self, lookupChannel_purgeG_self, hlook]
            exact ⟨_, rfl, rfl⟩
  · -- not imminent: nothing happens
    have hstep : reminder_step s cfg pc now ev password regSuccess = (s, []) := by
      simp only [reminder_step]
      rw [if_neg (by simp [hsch]), if_neg himm]
    refine ⟨?_, ?_, ?_⟩
    · rintro ⟨n, hn⟩
      rw [hstep] at hn
      simp at hn
    · intro himm' _
      exact absurd himm' himm
    · intro himm' _
      exact absurd himm' himm

/-- Witness for C7: the spec's scenario — "FooCTF 2024" starts in 45
minutes with 12 interested participants and `MIN_PLAYERS = 5`, and
registration succeeds. -/
theorem reminder_flow_witness :
    ((∃ n, Effect.insertCtf n
        ∈ (reminder_step s0W cfgW none 0 evW "pw" true).2) →
      evW.startTime - 0 < 3600 ∧ cfgW.minPlayers ≤ evW.userCount)
    ∧ (evW.startTime - 0 < 3600 → evW.userCount < cfgW.minPlayers →
        (reminder_step s0W cfgW none 0 evW "pw" true).1.ctfs = s0W.ctfs
        ∧ ((reminder_step s0W cfgW none 0 evW "pw" true).2 = []
            ∨ ∃ p m, (none : Option Nat) = some p
              ∧ (reminder_step s0W cfgW none 0 evW "pw" true).2
                  = [Effect.sendMessage p m]))
    ∧ (evW.startTime - 0 < 3600 → ¬ evW.userCount < cfgW.minPlayers →
        Effect.registerAttempt (parseLocationUrl evW.location)
            ∈ (reminder_step s0W cfgW none 0 evW "pw" true).2
        ∧ ∃ c ∈ (reminder_step s0W cfgW none 0 evW "pw" true).1.ctfs,
            c.name = evW.name ∧ c.ended = false
            ∧ (∀ u ∈ evW.users, Effect.addRole u c.guild_role
                ∈ (reminder_step s0W cfgW none 0 evW "pw" true).2)
            ∧ (true = true →
                ∃ ch, lookupChannel
                    (reminder_step s0W cfgW none 0 evW "pw" true).1.guild
                    c.chan_credentials = some ch
                  ∧ ch.messages.map Message.content
                      = [credsMessage (parseLocationUrl evW.location)
                          cfgW.teamName "pw"])) :=
  reminder_flow s0W cfgW none 0 evW "pw" true (by decide) (by decide)
    (fun c hc => nomatch hc) (fun p h => nomatch h)

/-! ## C8: the order of the ingestion steps -/

/-- Counterexample to C8 as stated: on a concrete fresh ingest, the
announcement (the message sent to the announcements channel, index 3) comes
BEFORE the Task-record insert (index 4), while the claim requires the
announcement to come after persisting and appending. -/
theorem ingest_announce_before_persist :
    ((process_challenge idSan "T" sAW ctfAW "http://x" dFirstW).2.1.findIdx
        (isAnnounceE ctfAW.chan_announcements))
      < ((process_challenge idSan "T" sAW ctfAW "http://x" dFirstW).2.1.findIdx
          isInsertChallengeE)
    ∧ ((process_challenge idSan "T" sAW ctfAW "http://x" dFirstW).2.1.findIdx
        isInsertChallengeE)
      < (process_challenge idSan "T" sAW ctfAW "http://x" dFirstW).2.1.length :=
  ⟨by decide, by decide⟩

/-- C8 as amended. For each fetched task not already present under the
uniqueness key, the ingestion pass performs its steps in this order: create
the task's workspace artifacts (channel, pinned info message), announce the
creation, persist the Task record, and append its identifier to the
session's task list. -/
theorem ingest_effect_order (san : String → String) (nowStr : String)
    (s : Sys) (ctf : CTFRec) (credsUrl : String) (d : ChallDesc)
    (hfresh : challengeExists s (normalizeChallenge d) = false) :
    ∃ chName chId infoMsg annMsg,
      (process_challenge san nowStr s ctf credsUrl d).2.1
        = [Effect.createTextChannel chName (some ctf.guild_category),
           Effect.sendMessage chId infoMsg,
           Effect.pinMessage chId,
           Effect.sendMessage ctf.chan_announcements annMsg,
           Effect.insertChallenge (normalizeChallenge d).id
             (normalizeChallenge d).name (normalizeChallenge d).category,
           Effect.updateCtfChallenges ctf.oid
             (ctf.challenges ++ [s.nextOid])] := by
  simp only [process_challenge, hfresh, Bool.false_eq_true, if_false]
  exact ⟨_, _, _, _, rfl⟩

/-- Witness for the amended C8, on the concrete first ingest of the C2
scenario. -/
theorem ingest_effect_order_witness :
    ∃ chName chId infoMsg annMsg,
      (process_challenge idSan "T" sAW ctfAW "http://x" dFirstW).2.1
        = [Effect.createTextChannel chName (some ctfAW.guild_category),
           Effect.sendMessage chId infoMsg,
           Effect.pinMessage chId,
           Effect.sendMessage ctfAW.chan_announcements annMsg,
           Effect.insertChallenge (normalizeChallenge dFirstW).id
             (normalizeChallenge dFirstW).name
             (normalizeChallenge dFirstW).category,
           Effect.updateCtfChallenges ctfAW.oid
             (ctfAW.challenges ++ [sAW.nextOid])] :=
  ingest_effect_order idSan "T" sAW ctfAW "http://x" dFirstW (by decide)

/-! ## C10: empty standings are skipped; the fallback is unreachable -/

theorem append_length_ne_zero_right (a b : String) (hb : b.length ≠ 0) :
    a ++ b ≠ "" := by
  intro h
  have hlen := congrArg String.length h
  rw [String.length_append] at hlen
  have h0 : ("" : String).length = 0 := rfl
  rw [h0] at hlen
  omega

theorem renderRow_ne_empty (uname : Option String) (w rank : Nat) (t : Team) :
    renderRow uname w rank t ≠ "" := by
  rw [renderRow]
  exact append_length_ne_zero_right _ _ (by decide)

theorem renderRows_ne_empty (uname : Option String) (w rank : Nat)
    (teams : List Team) (h : teams ≠ []) :
    renderRows uname w rank teams ≠ "" := by
  obtain ⟨t, ts, rfl⟩ := List.exists_cons_of_ne_nil h
  rw [renderRows]
  intro hemp
  have hlen := congrArg String.length hemp
  rw [String.length_append] at hlen
  have h0 : ("" : String).length = 0 := rfl
  rw [h0] at hlen
  have hrow := renderRow_ne_empty uname w rank t
  have : (renderRow uname w rank t).length = 0 := by omega
  apply hrow
  cases hr : renderRow uname w rank t with
  | mk data =>
    rw [hr] at this
    cases data with
    | nil => rfl
    | cons c cs => simp [String.length] at this

theorem scoreboardMessage_ne_fallback (nowStr : String) (w : Nat)
    (body : String) : scoreboardMessage nowStr w body ≠ noSolvesFallback := by
  intro h
  have h1 : (scoreboardMessage nowStr w body).data.head? = some '*' := rfl
  have h2 : noSolvesFallback.data.head? = some 'N' := rfl
  rw [h, h2] at h1
  cases h1

/-- C10. A session whose scoreboard fetch returns empty standings produces
no message (neither send nor edit) and leaves the state unchanged; for every
non-empty standings list the rendered table body is non-empty; and no effect
of a scoreboard pass ever carries the fallback text. -/
theorem scoreboard_empty_skip (fetch : String → Option (List Team))
    (nowStr : String) (s : Sys) (ctf : CTFRec) :
    (∀ url, ctf.credentials.url = some url → fetch url = some [] →
        scoreboard_session fetch nowStr s ctf = (s, []))
    ∧ (∀ (uname : Option String) (w : Nat) (teams : List Team), teams ≠ [] →
        renderRows uname w 1 teams ≠ "")
    ∧ (∀ e ∈ (scoreboard_session fetch nowStr s ctf).2, ∀ chId,
        e ≠ Effect.sendMessage chId noSolvesFallback
        ∧ e ≠ Effect.editMessage chId noSolvesFallback) := by
  refine ⟨?_, ?_, ?_⟩
  · intro url hurl hf
    simp [scoreboard_session, hurl, hf]
  · intro uname w teams h
    exact renderRows_ne_empty uname w 1 teams h
  · intro e he chId
    rcases hurl : ctf.credentials.url with _ | url
    · simp only [scoreboard_session, hurl] at he
      cases he
    · rcases hf : fetch url with _ | teams
      · simp only [scoreboard_session, hurl, hf] at he
        cases he
      · rcases teams with _ | ⟨t, ts⟩
        · simp only [scoreboard_session, hurl, hf, List.isEmpty_nil,
            if_true] at he
          cases he
        · have hmsg : scoreboardText ctf.credentials.username nowStr (t :: ts)
              ≠ noSolvesFallback := by
            rw [scoreboardText]
            rw [if_pos (renderRows_ne_empty _ _ 1 _ (by simp))]
            exact scoreboardMessage_ne_fallback _ _ _
          simp only [scoreboard_session, hurl, hf, List.isEmpty_cons] at he
          rcases hch : lookupChannel s.guild ctf.chan_scoreboard with _ | ch
          · rw [hch] at he
            simp at he
          · rw [hch] at he
            simp only [Bool.false_eq_true, if_false] at he
            rcases hm : ch.messages with _ | ⟨m0, rest⟩
            · rw [hm] at he
              simp at he
              subst he
              constructor
              · intro hcon
                injection hcon with _ h2
                exact hmsg h2
              · intro hcon
                cases hcon
            · rw [hm] at he
              simp at he
              subst he
              constructor
              · intro hcon
                cases hcon
              · intro hcon
                injection hcon with _ h2
                exact hmsg h2
  
/-- Witness for C10: a session with a set URL whose fetch returns empty
standings is skipped entirely. -/
theorem scoreboard_empty_skip_witness :
    scoreboard_session fetchEmptyW "T" sAW ctfSBW = (sAW, []) :=
  (scoreboard_empty_skip fetchEmptyW "T" sAW ctfSBW).1 "http://x" (by decide)
    (by decide)

/-! ## C9: the Ended state — provenance, terminality, exclusion -/

theorem endedPreserved_refl (l : List CTFRec) : EndedPreserved l l :=
  fun c hc he => ⟨c, hc, rfl, he⟩

theorem endedPreserved_trans {l₁ l₂ l₃ : List CTFRec}
    (h₁ : EndedPreserved l₁ l₂) (h₂ : EndedPreserved l₂ l₃) :
    EndedPreserved l₁ l₃ := by
  intro c hc he
  obtain ⟨c', hc', ho', he'⟩ := h₁ c hc he
  obtain ⟨c'', hc'', ho'', he''⟩ := h₂ c' hc' he'
  exact ⟨c'', hc'', by rw [ho'', ho'], he''⟩

theorem noNewEnded_refl (l : List CTFRec) : NoNewEnded l l :=
  fun c hc he => ⟨c, hc, he⟩

theorem noNewEnded_trans {l₁ l₂ l₃ : List CTFRec}
    (h₁ : NoNewEnded l₁ l₂) (h₂ : NoNewEnded l₂ l₃) : NoNewEnded l₁ l₃ := by
  intro c hc he
  obtain ⟨c', hc', he'⟩ := h₂ c hc he
  exact h₁ c' hc' he'

theorem endedPreserved_append (l new : List CTFRec) :
    EndedPreserved l (l ++ new) :=
  fun c hc he => ⟨c, List.mem_append_left _ hc, rfl, he⟩

theorem noNewEnded_append (l new : List CTFRec)
    (h : ∀ c ∈ new, c.ended = false) : NoNewEnded l (l ++ new) := by
  intro c' hc' he'
  rcases List.mem_append.1 hc' with hmem | hmem
  · exact ⟨c', hmem, he'⟩
  · rw [h c' hmem] at he'
    cases he'

theorem endedPreserved_update (l : List CTFRec) (oid : Nat)
    (f : CTFRec → CTFRec) (hoid : ∀ c, (f c).oid = c.oid)
    (hend : ∀ c, c.ended = true → (f c).ended = true) :
    EndedPreserved l (updateCtfIn l oid f) := by
  intro c hc he
  by_cases ho : c.oid = oid
  · refine ⟨f c, ?_, hoid c, hend c he⟩
    rw [updateCtfIn]
    have : (fun x => if x.oid == oid then f x else x) c = f c := by simp [ho]
    exact this ▸ List.mem_map_of_mem _ hc
  · refine ⟨c, ?_, rfl, he⟩
    rw [updateCtfIn]
    have : (fun x => if x.oid == oid then f x else x) c = c := by simp [ho]
    exact this ▸ List.mem_map_of_mem _ hc

theorem noNewEnded_update (l : List CTFRec) (oid : Nat) (f : CTFRec → CTFRec)
    (hend : ∀ c, (f c).ended = c.ended) :
    NoNewEnded l (updateCtfIn l oid f) := by
  intro c' hc' he'
  rw [updateCtfIn] at hc'
  obtain ⟨c, hc, hceq⟩ := List.mem_map.1 hc'
  refine ⟨c, hc, ?_⟩
  by_cases ho : c.oid = oid
  · rw [← he', ← hceq]
    simp [ho, hend]
  · rw [← he', ← hceq]
    simp [ho]

/-- `create_ctf` either leaves the store unchanged or appends a single
not-ended record. -/
theorem create_ctf_ctfs_shape (s : Sys) (name : String) (live : Bool) :
    (create_ctf s name live).1.ctfs = s.ctfs
    ∨ ∃ c, (create_ctf s name live).1.ctfs = s.ctfs ++ [c]
        ∧ c.ended = false := by
  rcases h : findCTF s name with _ | c
  · obtain ⟨c₀, hctfs, -, -, hended, -, -, -⟩ := create_ctf_fresh_ctfs s name live
    right
    rw [create_ctf, h]
    exact ⟨c₀, hctfs, hended⟩
  · left
    rw [create_ctf, h]

theorem create_ctf_ended (s : Sys) (name : String) (live : Bool) :
    EndedPreserved s.ctfs (create_ctf s name live).1.ctfs
    ∧ NoNewEnded s.ctfs (create_ctf s name live).1.ctfs := by
  rcases create_ctf_ctfs_shape s name live with h | ⟨c, h, hended⟩
  · rw [h]
    exact ⟨endedPreserved_refl _, noNewEnded_refl _⟩
  · rw [h]
    refine ⟨endedPreserved_append _ _, noNewEnded_append _ _ ?_⟩
    intro x hx
    rw [List.mem_singleton] at hx
    rw [hx]
    exact hended

theorem reminder_role_and_notice_ctfs (s : Sys) (pc : Option Nat) (now : Int)
    (ev : ScheduledEvent) (ctf : CTFRec) (acc : List Effect) :
    (reminder_role_and_notice s pc now ev ctf acc).1.ctfs = s.ctfs := by
  rcases pc with _ | p <;> rfl

theorem reminder_provision_ended (s : Sys) (cfg : Config) (pc : Option Nat)
    (now : Int) (ev : ScheduledEvent) (pw : String) (ok : Bool) :
    EndedPreserved s.ctfs (reminder_provision s cfg pc now ev pw ok).1.ctfs
    ∧ NoNewEnded s.ctfs (reminder_provision s cfg pc now ev pw ok).1.ctfs := by
  rcases hres : findCTF s ev.name with _ | c
  · -- fresh creation path
    obtain ⟨c₀, hctfs, hsome, -, hended, -, -, -⟩ :=
      create_ctf_fresh_ctfs s ev.name false
    have hred : (reminder_provision s cfg pc now ev pw ok).1.ctfs
        = if ok then
            updateCtfIn ((create_ctf_fresh s ev.name false).1.ctfs) c₀.oid
              (fun c => { c with credentials :=
                ⟨some (parseLocationUrl ev.location), some cfg.teamName,
                  some pw⟩ })
          else (create_ctf_fresh s ev.name false).1.ctfs := by
      simp only [reminder_provision, create_ctf, hres, hsome]
      rcases ok with _ | _
      · simp only [Bool.false_eq_true, if_false]
        rw [reminder_role_and_notice_ctfs]
      · simp only [if_true]
        rw [reminder_role_and_notice_ctfs]
        rfl
    rw [hred]
    rcases ok with _ | _
    · simp only [Bool.false_eq_true, if_false]
      rw [hctfs]
      refine ⟨endedPreserved_append _ _, noNewEnded_append _ _ ?_⟩
      intro x hx
      rw [List.mem_singleton] at hx
      rw [hx]
      exact hended
    · simp only [if_true]
      rw [hctfs]
      constructor
      · exact endedPreserved_trans (endedPreserved_append _ _)
          (endedPreserved_update _ _ _ (fun c => rfl) (fun c h => h))
      · refine noNewEnded_trans (noNewEnded_append _ _ ?_)
          (noNewEnded_update _ _ _ (fun c => rfl))
        intro x hx
        rw [List.mem_singleton] at hx
        rw [hx]
        exact hended
  · -- existing-record path
    have hred : (reminder_provision s cfg pc now ev pw ok).1.ctfs
        = if ok then
            updateCtfIn s.ctfs c.oid
              (fun x => { x with credentials :=
                ⟨some (parseLocationUrl ev.location), some cfg.teamName,
                  some pw⟩ })
          else s.ctfs := by
      simp only [reminder_provision, create_ctf, hres]
      rcases ok with _ | _
      · simp only [Bool.false_eq_true, if_false]
        rw [reminder_role_and_notice_ctfs]
      · simp only [if_true]
        rw [reminder_role_and_notice_ctfs]
        rfl
    rw [hred]
    rcases ok with _ | _
    · simp only [Bool.false_eq_true, if_false]
      exact ⟨endedPreserved_refl _, noNewEnded_refl _⟩
    · simp only [if_true]
      exact ⟨endedPreserved_update _ _ _ (fun c => rfl) (fun c h => h),
        noNewEnded_update _ _ _ (fun c => rfl)⟩

theorem reminder_step_ended (s : Sys) (cfg : Config) (pc : Option Nat)
    (now : Int) (ev : ScheduledEvent) (pw : String) (ok : Bool) :
    EndedPreserved s.ctfs (reminder_step s cfg pc now ev pw ok).1.ctfs
    ∧ NoNewEnded s.ctfs (reminder_step s cfg pc now ev pw ok).1.ctfs := by
  simp only [reminder_step]
  by_cases h1 : ev.status ≠ EventStatus.scheduled
  · rw [if_pos h1]
    exact ⟨endedPreserved_refl _, noNewEnded_refl _⟩
  · rw [if_neg h1]
    by_cases h2 : ev.startTime - now < 3600
    · rw [if_pos h2]
      by_cases h3 : ev.userCount < cfg.minPlayers
      · rw [if_pos h3]
        rcases pc with _ | p
        · exact ⟨endedPreserved_refl _, noNewEnded_refl _⟩
        · exact ⟨endedPreserved_refl _, noNewEnded_refl _⟩
      · rw [if_neg h3]
        exact reminder_provision_ended s cfg pc now ev pw ok
    · rw [if_neg h2]
      exact ⟨endedPreserved_refl _, noNewEnded_refl _⟩

theorem ctf_reminder_ended (cfg : Config) (pc : Option Nat) (now : Int)
    (evl : List (ScheduledEvent × String × Bool)) : ∀ s : Sys,
    EndedPreserved s.ctfs (ctf_reminder s cfg pc now evl).1.ctfs
    ∧ NoNewEnded s.ctfs (ctf_reminder s cfg pc now evl).1.ctfs := by
  induction evl with
  | nil => exact fun s => ⟨endedPreserved_refl _, noNewEnded_refl _⟩
  | cons h rest ih =>
    intro s
    obtain ⟨ev, pw, ok⟩ := h
    obtain ⟨hep, hnn⟩ := reminder_step_ended s cfg pc now ev pw ok
    obtain ⟨hep', hnn'⟩ := ih (reminder_step s cfg pc now ev pw ok).1
    exact ⟨endedPreserved_trans hep hep', noNewEnded_trans hnn hnn'⟩

theorem process_challenge_ended (san : String → String) (nowStr : String)
    (s : Sys) (ctf : CTFRec) (url : String) (d : ChallDesc) :
    EndedPreserved s.ctfs (process_challenge san nowStr s ctf url d).1.ctfs
    ∧ NoNewEnded s.ctfs (process_challenge san nowStr s ctf url d).1.ctfs := by
  rcases hex : challengeExists s (normalizeChallenge d) with _ | _
  · have hred : (process_challenge san nowStr s ctf url d).1.ctfs
        = updateCtfIn s.ctfs ctf.oid
            (fun c => { c with challenges := ctf.challenges ++ [s.nextOid] }) := by
      simp only [process_challenge, hex, Bool.false_eq_true, if_false]
    rw [hred]
    exact ⟨endedPreserved_update _ _ _ (fun c => rfl) (fun c h => h),
      noNewEnded_update _ _ _ (fun c => rfl)⟩
  · have hred : (process_challenge san nowStr s ctf url d).1.ctfs = s.ctfs := by
      simp only [process_challenge, hex, if_true]
    rw [hred]
    exact ⟨endedPreserved_refl _, noNewEnded_refl _⟩

theorem puller_session_ended (san : String → String) (nowStr : String)
    (url : String) (ds : List ChallDesc) : ∀ (s : Sys) (ctf : CTFRec),
    EndedPreserved s.ctfs (puller_session san nowStr s ctf url ds).1.ctfs
    ∧ NoNewEnded s.ctfs (puller_session san nowStr s ctf url ds).1.ctfs := by
  induction ds with
  | nil => exact fun s ctf => ⟨endedPreserved_refl _, noNewEnded_refl _⟩
  | cons d ds ih =>
    intro s ctf
    obtain ⟨hep, hnn⟩ := process_challenge_ended san nowStr s ctf url d
    obtain ⟨hep', hnn'⟩ := ih (process_challenge san nowStr s ctf url d).1
      (process_challenge san nowStr s ctf url d).2.2
    exact ⟨endedPreserved_trans hep hep', noNewEnded_trans hnn hnn'⟩

theorem challenge_puller_go_ended (san : String → String) (nowStr : String)
    (pull : String → List ChallDesc) (cl : List CTFRec) : ∀ s : Sys,
    EndedPreserved s.ctfs (challenge_puller_go san nowStr pull s cl).1.ctfs
    ∧ NoNewEnded s.ctfs (challenge_puller_go san nowStr pull s cl).1.ctfs := by
  induction cl with
  | nil => exact fun s => ⟨endedPreserved_refl _, noNewEnded_refl _⟩
  | cons ctf rest ih =>
    intro s
    rcases hurl : ctf.credentials.url with _ | url
    · simp only [challenge_puller_go, hurl]
      exact ⟨endedPreserved_refl _, noNewEnded_refl _⟩
    · simp only [challenge_puller_go, hurl]
      obtain ⟨hep, hnn⟩ := puller_session_ended san nowStr url (pull url) s ctf
      obtain ⟨hep', hnn'⟩ := ih (puller_session san nowStr s ctf url (pull url)).1
      exact ⟨endedPreserved_trans hep hep', noNewEnded_trans hnn hnn'⟩

theorem scoreboard_session_ctfs (fetch : String → Option (List Team))
    (nowStr : String) (s : Sys) (ctf : CTFRec) :
    (scoreboard_session fetch nowStr s ctf).1.ctfs = s.ctfs := by
  simp only [scoreboard_session]
  split
  · rfl
  · split
    · rfl
    · split
      · rfl
      · split
        · rfl
        · split <;> rfl

theorem scoreboard_updater_go_ended (fetch : String → Option (List Team))
    (nowStr : String) (cl : List CTFRec) : ∀ s : Sys,
    EndedPreserved s.ctfs (scoreboard_updater_go fetch nowStr s cl).1.ctfs
    ∧ NoNewEnded s.ctfs (scoreboard_updater_go fetch nowStr s cl).1.ctfs := by
  induction cl with
  | nil => exact fun s => ⟨endedPreserved_refl _, noNewEnded_refl _⟩
  | cons ctf rest ih =>
    intro s
    simp only [scoreboard_updater_go]
    obtain ⟨hep', hnn'⟩ := ih (scoreboard_session fetch nowStr s ctf).1
    rw [scoreboard_session_ctfs fetch nowStr s ctf] at hep' hnn'
    exact ⟨hep', hnn'⟩

theorem on_event_started_ended (s : Sys) (ev : ScheduledEvent) :
    EndedPreserved s.ctfs (on_event_started s ev).1.ctfs
    ∧ NoNewEnded s.ctfs (on_event_started s ev).1.ctfs := by
  have hred : (on_event_started s ev).1.ctfs = (create_ctf s ev.name true).1.ctfs := by
    rcases hres : findCTF s ev.name with _ | c
    · obtain ⟨c₀, hctfs, hsome, -, -, -, -, -⟩ :=
        create_ctf_fresh_ctfs s ev.name true
      simp only [on_event_started, create_ctf, hres, hsome]
      rcases findGeneralChannel
          (editCategoryReplaceG (create_ctf_fresh s ev.name true).1.guild
            c₀.guild_category "⏰" "🔴") c₀.guild_category with _ | ch
      · rfl
      · rfl
    · simp only [on_event_started, create_ctf, hres]
      rcases findGeneralChannel (editCategoryReplaceG s.guild
          c.guild_category "⏰" "🔴") c.guild_category with _ | ch
      · rfl
      · rfl
  rw [hred]
  exact create_ctf_ended s ev.name true

theorem on_event_ended_preserved (s : Sys) (ev : ScheduledEvent) :
    EndedPreserved s.ctfs (on_event_ended s ev).1.ctfs := by
  rcases hres : findCTF s ev.name with _ | ctf
  · simp only [on_event_ended, hres]
    exact endedPreserved_refl _
  · have hred : (on_event_ended s ev).1.ctfs
        = updateCtfIn s.ctfs ctf.oid (fun c => { c with ended := true }) := by
      simp only [on_event_ended, hres]
      rcases findGeneralChannel (editCategoryReplaceG s.guild
          ctf.guild_category "🔴" "🏁") ctf.guild_category with _ | ch
      · rfl
      · rfl
    rw [hred]
    exact endedPreserved_update _ _ _ (fun c => rfl) (fun c _ => rfl)

theorem stepSys_endedPreserved (s : Sys) (e : SysEvent) :
    EndedPreserved s.ctfs (stepSys s e).1.ctfs := by
  cases e with
  | evScheduledUpdate b a ev =>
    simp only [stepSys, on_scheduled_event_update]
    split
    · exact (on_event_started_ended s ev).1
    · split
      · exact on_event_ended_preserved s ev
      · exact endedPreserved_refl _
  | evReminderPass cfg pc now evl => exact (ctf_reminder_ended cfg pc now evl s).1
  | evPullerPass san nowStr pull =>
    exact (challenge_puller_go_ended san nowStr pull _ s).1
  | evScoreboardPass fetch nowStr =>
    exact (scoreboard_updater_go_ended fetch nowStr _ s).1
  | evUpcomingSync => exact endedPreserved_refl _
  | evManualCreate name live => exact (create_ctf_ended s name live).1

theorem stepSys_noNewEnded (s : Sys) (e : SysEvent)
    (hA : ¬ isActiveToEnded e) :
    NoNewEnded s.ctfs (stepSys s e).1.ctfs := by
  cases e with
  | evScheduledUpdate b a ev =>
    simp only [stepSys, on_scheduled_event_update]
    split
    · exact (on_event_started_ended s ev).2
    · split
      · rename_i hb
        exfalso
        apply hA
        simp only [Bool.and_eq_true, beq_iff_eq] at hb
        exact ⟨hb.1, hb.2⟩
      · exact noNewEnded_refl _
  | evReminderPass cfg pc now evl => exact (ctf_reminder_ended cfg pc now evl s).2
  | evPullerPass san nowStr pull =>
    exact (challenge_puller_go_ended san nowStr pull _ s).2
  | evScoreboardPass fetch nowStr =>
    exact (scoreboard_updater_go_ended fetch nowStr _ s).2
  | evUpcomingSync => exact noNewEnded_refl _
  | evManualCreate name live => exact (create_ctf_ended s name live).2

theorem applyEvents_endedPreserved (evs : List SysEvent) : ∀ s : Sys,
    EndedPreserved s.ctfs (applyEvents s evs).ctfs := by
  induction evs with
  | nil => exact fun s => endedPreserved_refl _
  | cons e es ih =>
    intro s
    exact endedPreserved_trans (stepSys_endedPreserved s e) (ih (stepSys s e).1)

theorem applyEvents_ended_provenance (evs : List SysEvent) : ∀ s : Sys,
    ∀ c' ∈ (applyEvents s evs).ctfs, c'.ended = true →
      (∃ c ∈ s.ctfs, c.ended = true) ∨ ∃ e ∈ evs, isActiveToEnded e := by
  induction evs with
  | nil => exact fun s c' hc' he' => Or.inl ⟨c', hc', he'⟩
  | cons e es ih =>
    intro s c' hc' he'
    rcases ih (stepSys s e).1 c' hc' he' with ⟨c, hc, hce⟩ | ⟨e', he', hA⟩
    · by_cases hA2E : isActiveToEnded e
      · exact Or.inr ⟨e, List.mem_cons_self e es, hA2E⟩
      · obtain ⟨c₀, h₀, he₀⟩ := stepSys_noNewEnded s e hA2E c hc hce
        exact Or.inl ⟨c₀, h₀, he₀⟩
    · exact Or.inr ⟨e', List.mem_cons_of_mem e he', hA⟩

theorem filter_map_comm {α : Type _} (l : List α) (g : α → α) (p : α → Bool)
    (h : ∀ x, p (g x) = p x) :
    (l.map g).filter p = (l.filter p).map g := by
  induction l with
  | nil => rfl
  | cons x xs ih =>
    rcases hx : p x with _ | _
    · simp only [List.map_cons, List.filter_cons, h, hx, Bool.false_eq_true,
        if_false, ih]
    · simp only [List.map_cons, List.filter_cons, h, hx, if_true, ih]

theorem filter_updateCtfIn (l : List CTFRec) (oid : Nat) (f : CTFRec → CTFRec)
    (hend : ∀ c, (f c).ended = c.ended) :
    (updateCtfIn l oid f).filter (fun c => !c.ended)
      = updateCtfIn (l.filter fun c => !c.ended) oid f := by
  rw [updateCtfIn, updateCtfIn]
  exact filter_map_comm l _ _ (by
    intro x
    by_cases ho : x.oid = oid
    · simp [ho, hend]
    · simp [ho])

theorem filter_not_ended_idem (l : List CTFRec) :
    (l.filter fun c => !c.ended).filter (fun c => !c.ended)
      = l.filter fun c => !c.ended := by
  induction l with
  | nil => rfl
  | cons c cs ih =>
    by_cases hc : c.ended <;> simp [List.filter_cons, hc, ih]

theorem process_challenge_core (san : String → String) (nowStr : String)
    (s t : Sys) (ctf : CTFRec) (url : String) (d : ChallDesc)
    (h : CoreEq s t) :
    CoreEq (process_challenge san nowStr s ctf url d).1
        (process_challenge san nowStr t ctf url d).1
    ∧ (process_challenge san nowStr t ctf url d).2.1
        = (process_challenge san nowStr s ctf url d).2.1
    ∧ (process_challenge san nowStr t ctf url d).2.2
        = (process_challenge san nowStr s ctf url d).2.2 := by
  obtain ⟨hg, hch, hoid, hctfs⟩ := h
  have hexists : challengeExists t (normalizeChallenge d)
      = challengeExists s (normalizeChallenge d) := by
    rw [challengeExists, challengeExists, hch]
  rcases hex : challengeExists s (normalizeChallenge d) with _ | _
  · rw [hex] at hexists
    simp only [process_challenge, hexists, hex, Bool.false_eq_true, if_false]
    rw [hg, hch, hoid]
    refine ⟨⟨rfl, rfl, rfl, ?_⟩, rfl, rfl⟩
    show updateCtfIn t.ctfs ctf.oid _ = (updateCtfIn s.ctfs ctf.oid _).filter _
    rw [hctfs, filter_updateCtfIn]
    intro c
    rfl
  · rw [hex] at hexists
    simp only [process_challenge, hexists, hex, if_true]
    refine ⟨⟨hg, hch, hoid, hctfs⟩, ?_, ?_⟩ <;> trivial

theorem puller_session_core (san : String → String) (nowStr : String)
    (url : String) (ds : List ChallDesc) :
    ∀ (s t : Sys) (ctf : CTFRec), CoreEq s t →
    CoreEq (puller_session san nowStr s ctf url ds).1
        (puller_session san nowStr t ctf url ds).1
    ∧ (puller_session san nowStr t ctf url ds).2.1
        = (puller_session san nowStr s ctf url ds).2.1
    ∧ (puller_session san nowStr t ctf url ds).2.2
        = (puller_session san nowStr s ctf url ds).2.2 := by
  induction ds with
  | nil => exact fun s t ctf h => ⟨h, rfl, rfl⟩
  | cons d ds ih =>
    intro s t ctf h
    obtain ⟨hcore, heff, hsnap⟩ := process_challenge_core san nowStr s t ctf
      url d h
    obtain ⟨hcore', heff', hsnap'⟩ := ih
      (process_challenge san nowStr s ctf url d).1
      (process_challenge san nowStr t ctf url d).1
      (process_challenge san nowStr s ctf url d).2.2 hcore
    simp only [puller_session]
    rw [hsnap, heff]
    exact ⟨hcore', by rw [heff'], by rw [hsnap']⟩

theorem challenge_puller_go_core (san : String → String) (nowStr : String)
    (pull : String → List ChallDesc) (cl : List CTFRec) :
    ∀ s t : Sys, CoreEq s t →
    CoreEq (challenge_puller_go san nowStr pull s cl).1
        (challenge_puller_go san nowStr pull t cl).1
    ∧ (challenge_puller_go san nowStr pull t cl).2
        = (challenge_puller_go san nowStr pull s cl).2 := by
  induction cl with
  | nil => exact fun s t h => ⟨h, rfl⟩
  | cons ctf rest ih =>
    intro s t h
    rcases hurl : ctf.credentials.url with _ | url
    · simp only [challenge_puller_go, hurl]
      refine ⟨h, ?_⟩
      trivial
    · simp only [challenge_puller_go, hurl]
      obtain ⟨hcore, heff, -⟩ := puller_session_core san nowStr url (pull url)
        s t ctf h
      obtain ⟨hcore', heff'⟩ := ih
        (puller_session san nowStr s ctf url (pull url)).1
        (puller_session san nowStr t ctf url (pull url)).1 hcore
      exact ⟨hcore', by rw [heff, heff']⟩

theorem scoreboard_session_core (fetch : String → Option (List Team))
    (nowStr : String) (s t : Sys) (ctf : CTFRec) (h : CoreEq s t) :
    CoreEq (scoreboard_session fetch nowStr s ctf).1
        (scoreboard_session fetch nowStr t ctf).1
    ∧ (scoreboard_session fetch nowStr t ctf).2
        = (scoreboard_session fetch nowStr s ctf).2 := by
  obtain ⟨hg, hch, hoid, hctfs⟩ := h
  simp only [scoreboard_session, hg]
  split
  · exact ⟨⟨hg, hch, hoid, hctfs⟩, by trivial⟩
  · split
    · exact ⟨⟨hg, hch, hoid, hctfs⟩, by trivial⟩
    · split
      · exact ⟨⟨hg, hch, hoid, hctfs⟩, by trivial⟩
      · split
        · exact ⟨⟨hg, hch, hoid, hctfs⟩, by trivial⟩
        · split
          · refine ⟨⟨?_, hch, hoid, hctfs⟩, by trivial⟩
            show (sendG t.guild _ _).1 = (sendG s.guild _ _).1
            rw [hg]
          · refine ⟨⟨?_, hch, hoid, hctfs⟩, by trivial⟩
            show editLastG t.guild _ _ = editLastG s.guild _ _
            rw [hg]

theorem scoreboard_updater_go_core (fetch : String → Option (List Team))
    (nowStr : String) (cl : List CTFRec) :
    ∀ s t : Sys, CoreEq s t →
    CoreEq (scoreboard_updater_go fetch nowStr s cl).1
        (scoreboard_updater_go fetch nowStr t cl).1
    ∧ (scoreboard_updater_go fetch nowStr t cl).2
        = (scoreboard_updater_go fetch nowStr s cl).2 := by
  induction cl with
  | nil => exact fun s t h => ⟨h, rfl⟩
  | cons ctf rest ih =>
    intro s t h
    simp only [scoreboard_updater_go]
    obtain ⟨hcore, heff⟩ := scoreboard_session_core fetch nowStr s t ctf h
    obtain ⟨hcore', heff'⟩ := ih (scoreboard_session fetch nowStr s ctf).1
      (scoreboard_session fetch nowStr t ctf).1 hcore
    exact ⟨hcore', by rw [heff, heff']⟩

/-- C9. The Ended state: (a) starting from a store with no ended session, a
session can be marked ended only if some active→ended calendar transition
occurred in the event sequence; (b) Ended is terminal — no modeled job or
handler ever clears the ended flag of any session; (c) ended sessions are
excluded from the task-puller and scoreboard-updater cycles: dropping every
ended session from the store leaves both cycles' effects unchanged. -/
theorem ended_lifecycle (s : Sys) (evs : List SysEvent) :
    ((∀ c ∈ s.ctfs, c.ended = false) →
      ∀ c ∈ (applyEvents s evs).ctfs, c.ended = true →
        ∃ e ∈ evs, isActiveToEnded e)
    ∧ (∀ oid, oidEnded s oid → oidEnded (applyEvents s evs) oid)
    ∧ (∀ (san : String → String) (nowStr : String)
        (pull : String → List ChallDesc),
        (challenge_puller san nowStr pull (dropEnded s)).2
          = (challenge_puller san nowStr pull s).2)
    ∧ (∀ (fetch : String → Option (List Team)) (nowStr : String),
        (scoreboard_updater fetch nowStr (dropEnded s)).2
          = (scoreboard_updater fetch nowStr s).2) := by
  refine ⟨?_, ?_, ?_, ?_⟩
  · intro h0 c hmem hended
    rcases applyEvents_ended_provenance evs s c hmem hended with
      ⟨c₀, hc₀, he₀⟩ | hfound
    · rw [h0 c₀ hc₀] at he₀
      cases he₀
    · exact hfound
  · intro oid hoe
    obtain ⟨c, hc, hcoid, hce⟩ := hoe
    obtain ⟨c', hc', hoid', hce'⟩ := applyEvents_endedPreserved evs s c hc hce
    exact ⟨c', hc', by rw [hoid', hcoid], hce'⟩
  · intro san nowStr pull
    have hcore : CoreEq s (dropEnded s) := ⟨rfl, rfl, rfl, rfl⟩
    have h := challenge_puller_go_core san nowStr pull
      (s.ctfs.filter fun c => !c.ended) s (dropEnded s) hcore
    simp only [challenge_puller]
    have hfl : (dropEnded s).ctfs.filter (fun c => !c.ended)
        = s.ctfs.filter (fun c => !c.ended) := filter_not_ended_idem s.ctfs
    rw [hfl]
    exact h.2
  · intro fetch nowStr
    have hcore : CoreEq s (dropEnded s) := ⟨rfl, rfl, rfl, rfl⟩
    have h := scoreboard_updater_go_core fetch nowStr
      (s.ctfs.filter fun c => !c.ended) s (dropEnded s) hcore
    simp only [scoreboard_updater]
    have hfl : (dropEnded s).ctfs.filter (fun c => !c.ended)
        = s.ctfs.filter (fun c => !c.ended) := filter_not_ended_idem s.ctfs
    rw [hfl]
    exact h.2

/-- Witness for C9: the "FooCTF" session starts not-ended and is marked
ended after the active→ended transition of its calendar event, so the
theorem yields that transition from the trace. -/
theorem ended_lifecycle_witness :
    ∃ e ∈ evsW9, isActiveToEnded e :=
  (ended_lifecycle sAW evsW9).1 (by decide) ctfEndedW (by decide) (by decide)
